import Mathlib

/-!
Verification of the hubbub HTML tokeniser and tree-construction dispatcher
(src/tokeniser/tokeniser.c, src/treebuilder/in_foreign_content.c,
src/treebuilder/in_caption.c) against its natural-language specification.

The embedding models the input stream at codepoint granularity: the stream's
buffer is a `List Nat` of codepoints, one buffer position per codepoint, and
all offsets and lengths (`hubbub_string.data_off` / `len`) count codepoints.
Every codepoint consumed by the tokeniser states modelled here advances the
cursor by exactly one position, so this is equivalent to the byte-level
source for the properties proved below.

The input stream itself (`hubbub_inputstream_*`) is not part of the sources
under verification; its primitives are modelled from the specification's
input-stream contract (section 6.1 of the spec).
-/

set_option maxRecDepth 10000

namespace Hubbub

/-- ASCII lowercasing of a single codepoint, as performed by the input
stream's in-place lowercase primitive. -/
def cpToLower (c : Nat) : Nat := if 0x41 ≤ c ∧ c ≤ 0x5A then c + 0x20 else c

/-- ASCII uppercasing of a single codepoint, as performed by the input
stream's in-place uppercase primitive. -/
def cpToUpper (c : Nat) : Nat := if 0x61 ≤ c ∧ c ≤ 0x7A then c - 0x20 else c

/-- The `c & ~0x20` idiom of the C source (clear bit 5 of a 32-bit value),
used for case-insensitive comparison against an uppercase letter. -/
def maskUpper (c : Nat) : Nat := c &&& 0xFFFFFFDF

/-- Result of peeking the input stream: an actual codepoint, end of input
(`EOF`), or out of data (`OOD`). -/
inductive Peeked where
  | cp (c : Nat)
  | eof
  | ood
deriving DecidableEq, Repr

/-- Model of `hubbub_inputstream`: a buffer of codepoints, a cursor, and a
flag recording whether the end of the document has been signalled (when it
is false, reading past the buffer yields `OOD` rather than `EOF`).
Modelled from the spec: input-stream contract of section 6.1. -/
structure Inputstream where
  buffer : List Nat
  cursor : Nat
  hadEOF : Bool
deriving DecidableEq, Repr

/-- Contiguous slice of a buffer: `len` codepoints starting at `off`. -/
def slice (buf : List Nat) (off len : Nat) : List Nat := (buf.drop off).take len

namespace Inputstream

/-- Modelled from the spec: `peek() -> codepoint | EOF | OOD`. -/
def peek (s : Inputstream) : Peeked :=
  if s.cursor < s.buffer.length then .cp (s.buffer.getD s.cursor 0)
  else if s.hadEOF then .eof else .ood

/-- Peek at an arbitrary position of the stream (used only in theorem
statements, to talk about the character following a span). -/
def peekAt (s : Inputstream) (i : Nat) : Peeked :=
  if i < s.buffer.length then .cp (s.buffer.getD i 0)
  else if s.hadEOF then .eof else .ood

/-- Modelled from the spec: `advance()` moves the cursor past the last
peeked codepoint. -/
def advance (s : Inputstream) : Inputstream :=
  if s.cursor < s.buffer.length then { s with cursor := s.cursor + 1 } else s

/-- Modelled from the spec: `lowercase()` mutates the codepoint at the
cursor in place. -/
def lowercase (s : Inputstream) : Inputstream :=
  { s with buffer := s.buffer.set s.cursor (cpToLower (s.buffer.getD s.cursor 0)) }

/-- Modelled from the spec: `uppercase()` mutates the codepoint at the
cursor in place. -/
def uppercase (s : Inputstream) : Inputstream :=
  { s with buffer := s.buffer.set s.cursor (cpToUpper (s.buffer.getD s.cursor 0)) }

/-- Modelled from the spec: `push_back(codepoint)` prepends a synthetic
codepoint to the remaining stream (the next peek returns it). -/
def pushBack (s : Inputstream) (c : Nat) : Inputstream :=
  { s with buffer := s.buffer.take s.cursor ++ c :: s.buffer.drop s.cursor }

/-- Modelled from the spec: `rewind(n)` moves the cursor backwards by `n`
positions, failing if fewer than `n` positions were consumed.  This variant
is used where the C source checks the returned error (and aborts). -/
def rewind (s : Inputstream) (n : Nat) : Option Inputstream :=
  if n ≤ s.cursor then some { s with cursor := s.cursor - n } else none

/-- The rewind primitive as used at the call sites that ignore the returned
error code: on failure the stream is left unchanged. -/
def rewindIgnore (s : Inputstream) (n : Nat) : Inputstream :=
  if n ≤ s.cursor then { s with cursor := s.cursor - n } else s

/-- Modelled from the spec: `compare_range_ci(a, b, n)` compares two buffer
ranges case-insensitively; `true` means the ranges are equal. -/
def compareRangeCI (s : Inputstream) (off1 off2 len : Nat) : Bool :=
  (slice s.buffer off1 len).map cpToLower = (slice s.buffer off2 len).map cpToLower

/-- Modelled from the spec: `compare_range_cs(a, b, n)` compares two buffer
ranges byte-exactly; `true` means the ranges are equal. -/
def compareRangeCS (s : Inputstream) (off1 off2 len : Nat) : Bool :=
  slice s.buffer off1 len = slice s.buffer off2 len

/-- Modelled from the spec: `compare_range_ascii(off, len, literal, len2)`
compares a buffer range against an ASCII literal, case-insensitively;
`true` means equality (which requires the lengths to agree). -/
def compareRangeAscii (s : Inputstream) (off len : Nat) (lit : List Nat) : Bool :=
  len = lit.length ∧ (slice s.buffer off len).map cpToLower = lit.map cpToLower

/-- Modelled from the spec: `replace_range(off, len, codepoint)` replaces a
range of the buffer in place by a single codepoint. -/
def replaceRange (s : Inputstream) (off len cp : Nat) : Inputstream :=
  { s with buffer := s.buffer.take off ++ cp :: s.buffer.drop (off + len) }

end Inputstream

/-- `hubbub_string`: an `(offset, length)` reference into the input
stream's buffer. -/
structure HubbubString where
  data_off : Nat
  len : Nat
deriving DecidableEq, Repr

instance : Inhabited HubbubString := ⟨⟨0, 0⟩⟩

/-- `hubbub_attribute`: name and value spans. -/
structure HubbubAttribute where
  name : HubbubString
  value : HubbubString
deriving DecidableEq, Repr

instance : Inhabited HubbubAttribute := ⟨⟨default, default⟩⟩

/-- `hubbub_tag`: tag name span plus the attribute array.  The list models
the allocated array; `n_attributes` is the logical element count (the array
may retain stale entries past `n_attributes` after the emit-time
duplicate-elimination `memmove`s, exactly as in the C source). -/
structure HubbubTag where
  name : HubbubString
  n_attributes : Nat
  attributes : List HubbubAttribute
deriving DecidableEq, Repr

/-- `hubbub_doctype`: name span and the `correct` flag (the public/system
identifier fields are never touched by this tokeniser). -/
structure HubbubDoctype where
  name : HubbubString
  correct : Bool
deriving DecidableEq, Repr

/-- The two values `context.current_tag_type` ever takes. -/
inductive TagType where
  | startTag
  | endTag
deriving DecidableEq, Repr

/-- `hubbub_token`: the tagged variant passed to `hubbub_tokeniser_emit_token`. -/
inductive Token where
  | character (data : HubbubString)
  | startTag (tag : HubbubTag)
  | endTag (tag : HubbubTag)
  | comment (data : HubbubString)
  | doctype (d : HubbubDoctype)
  | eofTok
deriving DecidableEq, Repr

/-- `hubbub_tokeniser_state`. -/
inductive TokState where
  | data
  | entityData
  | tagOpen
  | closeTagOpen
  | closeTagMatch
  | tagName
  | beforeAttributeName
  | attributeName
  | afterAttributeName
  | beforeAttributeValue
  | attributeValueDQ
  | attributeValueSQ
  | attributeValueUQ
  | entityInAttributeValue
  | bogusComment
  | markupDeclarationOpen
  | commentStart
  | comment
  | commentDash
  | commentEnd
  | matchDoctype
  | doctype
  | beforeDoctypeName
  | doctypeName
  | afterDoctypeName
  | bogusDoctype
  | numberedEntity
  | namedEntity
deriving DecidableEq, Repr

/-- `hubbub_content_model`. -/
inductive ContentModel where
  | pcdata
  | rcdata
  | cdata
  | plaintext
deriving DecidableEq, Repr

/-- `hubbub_error` values used by the modelled entry points. -/
inductive HubbubError where
  | ok
  | badparm
deriving DecidableEq, Repr

/-- The `match_entity` sub-context.  The opaque `void *context` trie cursor
of the named-entity search is modelled as the list of codepoints stepped so
far (see `hubbub_entities_search_step`). -/
structure MatchEntity where
  str : HubbubString
  base : Nat
  codepoint : Nat
  had_data : Bool
  return_state : TokState
  complete : Bool
  done_setup : Bool
  context : List Nat
  prev_len : Nat
deriving DecidableEq, Repr

/-- `hubbub_tokeniser_context`. -/
structure Context where
  current_tag_type : TagType
  current_tag : HubbubTag
  current_comment : HubbubString
  current_doctype : HubbubDoctype
  current_chars : HubbubString
  prev_state : TokState
  close_tag_match_tag : HubbubString
  match_doctype_count : Nat
  match_entity : MatchEntity
deriving DecidableEq, Repr

/-- Emitted token as observed by a registered token handler.  Since token
spans are only valid for the duration of the handler call, the observable
content is the resolved text at emission time. -/
inductive OutToken where
  | character (data : List Nat)
  | startTag (name : List Nat) (attrs : List (List Nat × List Nat))
  | endTag (name : List Nat) (attrs : List (List Nat × List Nat))
  | comment (data : List Nat)
  | doctype (name : List Nat) (correct : Bool)
  | eofTok
deriving DecidableEq, Repr

/-- `hubbub_tokeniser`.  Handler callbacks are modelled as opaque handles
(`Option Nat`); `output` is the sequence of tokens delivered to the
registered token handler, and `buffer_notices` the buffer lengths delivered
to the registered buffer handler. -/
structure Tokeniser where
  state : TokState
  content_model : ContentModel
  input : Inputstream
  input_buffer_len : Nat
  ctx : Context
  token_handler : Option Nat
  token_pw : Nat
  buffer_handler : Option Nat
  buffer_pw : Nat
  error_handler : Option Nat
  error_pw : Nat
  buffer_notices : List Nat
  output : List OutToken
deriving DecidableEq, Repr

/-- Resolve a token's spans against the buffer contents at emission time. -/
def resolveToken (buf : List Nat) : Token → OutToken
  | .character s => .character (slice buf s.data_off s.len)
  | .startTag t => .startTag (slice buf t.name.data_off t.name.len)
      ((t.attributes.take t.n_attributes).map fun a =>
        (slice buf a.name.data_off a.name.len, slice buf a.value.data_off a.value.len))
  | .endTag t => .endTag (slice buf t.name.data_off t.name.len)
      ((t.attributes.take t.n_attributes).map fun a =>
        (slice buf a.name.data_off a.name.len, slice buf a.value.data_off a.value.len))
  | .comment s => .comment (slice buf s.data_off s.len)
  | .doctype d => .doctype (slice buf d.name.data_off d.name.len) d.correct
  | .eofTok => .eofTok

/-- One `memmove` of the duplicate-attribute scan: shift `move` array
elements down onto index `r`, leaving the array length (the allocation)
unchanged, so the element previously at the end remains as a stale copy. -/
def memmoveRemove (arr : List HubbubAttribute) (r move : Nat) : List HubbubAttribute :=
  arr.take r ++ (arr.drop (r + 1)).take move ++ arr.drop (r + move)

/-- The attribute-name comparison of the duplicate scan: equal lengths and
byte-exact equal contents (`compare_range_cs`). -/
def attrNameEq (s : Inputstream) (a b : HubbubAttribute) : Bool :=
  a.name.len = b.name.len ∧ s.compareRangeCS a.name.data_off b.name.data_off a.name.len

/-- Inner `for (j = 0; j < n_attributes; j++)` loop of the duplicate scan. -/
def dedupInner (s : Inputstream) (arr : List HubbubAttribute) (n i j : Nat) :
    Nat → List HubbubAttribute × Nat
  | 0 => (arr, n)
  | fuel + 1 =>
    if j < n then
      if j = i ∨ ¬ attrNameEq s (arr.getD i default) (arr.getD j default) then
        dedupInner s arr n i (j + 1) fuel
      else
        let r := if i < j then j else i
        let move := n - 1 - r
        dedupInner s (memmoveRemove arr r move) (n - 1) i (j + 1) fuel
    else (arr, n)

/-- Outer `for (i = 0; i < n_attributes; i++)` loop of the duplicate scan. -/
def dedupOuter (s : Inputstream) (arr : List HubbubAttribute) (n i : Nat) :
    Nat → List HubbubAttribute × Nat
  | 0 => (arr, n)
  | fuel + 1 =>
    if i < n then
      let p := dedupInner s arr n i 0 (n + 1)
      dedupOuter s p.1 p.2 (i + 1) fuel
    else (arr, n)

/-- The duplicate-attribute elimination performed by
`hubbub_tokeniser_emit_token` on a tag: a pairwise scan that removes the
later of two equal names and compacts the array by `memmove`. -/
def dedupAttributes (s : Inputstream) (t : HubbubTag) : HubbubTag :=
  let p := dedupOuter s t.attributes t.n_attributes 0 (t.n_attributes + 1)
  { t with attributes := p.1, n_attributes := p.2 }

/-- Core of `hubbub_tokeniser_emit_token` for a non-null tokeniser and
token: if no token handler is registered the token is dropped unchanged;
otherwise start/end tags get duplicate attributes discarded and the token
is delivered to the handler.  Returns the tokeniser and the (possibly
modified) token. -/
def emitTokenCore (t : Tokeniser) (token : Token) : Tokeniser × Token :=
  match t.token_handler with
  | none => (t, token)
  | some _ =>
    let token' :=
      match token with
      | .startTag tag => .startTag (dedupAttributes t.input tag)
      | .endTag tag => .endTag (dedupAttributes t.input tag)
      | k => k
    ({ t with output := t.output ++ [resolveToken t.input.buffer token'] }, token')

/-- `hubbub_tokeniser_emit_token` including its null-pointer guards: a null
tokeniser or token, like an unregistered handler, leaves everything
untouched. -/
def hubbub_tokeniser_emit_token (t? : Option Tokeniser) (token? : Option Token) :
    Option Tokeniser × Option Token :=
  match t?, token? with
  | some t, some token =>
    let p := emitTokenCore t token
    (some p.1, some p.2)
  | t?, token? => (t?, token?)

/-- Emit a token during state handling (the C source always passes valid
pointers internally), keeping only the updated tokeniser. -/
def emitTok (t : Tokeniser) (token : Token) : Tokeniser := (emitTokenCore t token).1

/-- Result of one state handler: the updated tokeniser together with the
`bool` the handler returns (`true` keeps the run loop going), or an
`abort()`. -/
inductive StepResult where
  | next (t : Tokeniser) (cont : Bool)
  | aborted
deriving DecidableEq, Repr

/-- The current tag as a token of the current tag type. -/
def mkTagToken (t : Tokeniser) : Token :=
  match t.ctx.current_tag_type with
  | .startTag => .startTag t.ctx.current_tag
  | .endTag => .endTag t.ctx.current_tag

/-- Emit the current tag. -/
def emitCurrentTag (t : Tokeniser) : Tokeniser := emitTok t (mkTagToken t)

/-- Write a new attribute at index `n_attributes` of the attribute array
and bump the count (the C source reallocates and writes in place; entries
beyond the logical count are dropped on overwrite). -/
def pushAttr (tag : HubbubTag) (a : HubbubAttribute) : HubbubTag :=
  { tag with
    attributes := tag.attributes.take tag.n_attributes ++ [a]
    n_attributes := tag.n_attributes + 1 }

/-- Update attribute `n_attributes - 1` in place. -/
def modifyLastAttr (tag : HubbubTag) (f : HubbubAttribute → HubbubAttribute) : HubbubTag :=
  { tag with
    attributes :=
      tag.attributes.set (tag.n_attributes - 1)
        (f (tag.attributes.getD (tag.n_attributes - 1) default)) }

/-- Test whether a peeked value is a codepoint whose bit-5-cleared form
equals the given uppercase letter (the `(c & ~0x20) == 'X'` idiom). -/
def peekMasked (c : Peeked) (u : Nat) : Bool :=
  match c with
  | .cp ch => maskUpper ch = u
  | _ => false

/-- Span accumulation: start a span at `pos` if it is empty, else extend it
by one position (the `if (len == 0) data_off = pos; len++` pattern). -/
def extendSpan (s : HubbubString) (pos : Nat) : HubbubString :=
  if s.len = 0 then ⟨pos, 1⟩ else { s with len := s.len + 1 }

/-! ## The DATA state -/

/-- The character-accumulation loop of `hubbub_tokeniser_handle_data`.  The
list argument is the remaining buffer content from the cursor on, consumed
in lockstep with the stream. -/
def dataLoop : Tokeniser → List Nat → Tokeniser × Peeked
  | t, [] => (t, t.input.peek)
  | t, c :: rs =>
    if c = 38 ∧ (t.content_model = .pcdata ∨ t.content_model = .rcdata) then
      ({ t with state := .entityData }, .cp c)
    else if c = 60 ∧ t.content_model ≠ .plaintext then
      let t := if 0 < t.ctx.current_chars.len then
          emitTok t (.character t.ctx.current_chars) else t
      let t := { t with
        ctx.current_chars := ⟨t.input.cursor, 1⟩,
        state := .tagOpen,
        input := t.input.advance }
      (t, .cp c)
    else
      let t := { t with
        ctx.current_chars := extendSpan t.ctx.current_chars t.input.cursor,
        input := t.input.advance }
      dataLoop t rs

/-- `hubbub_tokeniser_handle_data`. -/
def hubbub_tokeniser_handle_data (t : Tokeniser) : StepResult :=
  let t := { t with ctx.current_chars := ⟨0, 0⟩ }
  let p := dataLoop t (t.input.buffer.drop t.input.cursor)
  let t := p.1
  let c := p.2
  let t :=
    if t.state ≠ .tagOpen ∧ 0 < t.ctx.current_chars.len then
      let t := emitTok t (.character t.ctx.current_chars)
      { t with ctx.current_chars := ⟨0, 0⟩ }
    else t
  let t := if c = .eof then emitTok t .eofTok else t
  .next t (c ≠ .eof ∧ c ≠ .ood : Bool)

/-! ## Entity consumption -/

/-- Result of one step of the named-entity search. -/
inductive EntityStepRes where
  | found (cp : Nat)
  | more
  | dead
deriving DecidableEq, Repr

/-- Look up an exact entity name in the entity dictionary. -/
def entityLookup : List (List Nat × Nat) → List Nat → Option Nat
  | [], _ => none
  | e :: es, p => if e.1 = p then some e.2 else entityLookup es p

/-- Whether `p` is a proper prefix of some entity name (so that the trie
descent can continue). -/
def entityViable (dict : List (List Nat × Nat)) (p : List Nat) : Bool :=
  dict.any fun e => p.isPrefixOf e.1 && p.length < e.1.length

/-- Modelled from the spec: the named-entity search is a precomputed trie
with a stepwise `next(byte) -> {match, continue, dead}` interface.  The
opaque trie cursor is the list of bytes stepped so far; stepping `c`
reports a match when the extended prefix is an entity name, continuation
when it is a proper prefix of one, and a dead end otherwise. -/
def hubbub_entities_search_step (dict : List (List Nat × Nat)) (c : Nat)
    (ctx : List Nat) : EntityStepRes × List Nat :=
  let p := ctx ++ [c]
  match entityLookup dict p with
  | some v => (.found v, p)
  | none => if entityViable dict p then (.more, p) else (.dead, p)

/-- The `done_setup == false` initialisation block of
`hubbub_tokeniser_consume_entity`: record the `&` span, zero the matching
state, remember the calling state, and advance past the `&`. -/
def consumeEntitySetup (t : Tokeniser) : Tokeniser :=
  if t.ctx.match_entity.done_setup = false then
    { t with
      ctx.match_entity := {
        str := ⟨t.input.cursor, 1⟩
        base := 0
        codepoint := 0
        had_data := false
        return_state := t.state
        complete := false
        done_setup := true
        context := []
        prev_len := 1 }
      input := t.input.advance }
  else t

/-- `hubbub_tokeniser_consume_entity`. -/
def hubbub_tokeniser_consume_entity (t : Tokeniser) : StepResult :=
  let t := consumeEntitySetup t
  let c := t.input.peek
  if c = .ood then .next t false
  else if c = .cp 35 then
    let t := { t with
      ctx.match_entity.str.len := t.ctx.match_entity.str.len + 1,
      state := .numberedEntity,
      input := t.input.advance }
    .next t true
  else .next { t with state := .namedEntity } true

/-- The 32-bit wrap-around of the C `uint32_t` codepoint accumulator. -/
def u32 (n : Nat) : Nat := n % 4294967296

/-- Whether `c` is a digit of the numbered-entity machine in base `b`
(base 10 decimal digits; base 16 additionally `A`-`F` in either case). -/
def isDigitB (b c : Nat) : Bool :=
  (b = 10 ∧ 48 ≤ c ∧ c ≤ 57) ∨
  (b = 16 ∧ ((48 ≤ c ∧ c ≤ 57) ∨ (65 ≤ maskUpper c ∧ maskUpper c ≤ 70)))

/-- Numeric value of such a digit, computed as in the C source. -/
def digitVal (c : Nat) : Nat :=
  if 48 ≤ c ∧ c ≤ 57 then c - 48 else maskUpper c - 65 + 10

/-- The digit-accumulation loop of
`hubbub_tokeniser_handle_numbered_entity`.  The list argument is the
remaining buffer content from the cursor on. -/
def numberedLoop : Tokeniser → List Nat → Tokeniser × Peeked
  | t, [] => (t, t.input.peek)
  | t, c :: rs =>
    if isDigitB t.ctx.match_entity.base c then
      let t := { t with
        ctx.match_entity.had_data := true,
        ctx.match_entity.codepoint :=
          u32 (t.ctx.match_entity.codepoint * t.ctx.match_entity.base + digitVal c),
        ctx.match_entity.str.len := t.ctx.match_entity.str.len + 1,
        input := t.input.advance }
      numberedLoop t rs
    else (t, .cp c)

/-- The Windows-1252 remapping table `cp1252Table`. -/
def cp1252Table : List Nat :=
  [0x20AC, 0xFFFD, 0x201A, 0x0192, 0x201E, 0x2026, 0x2020, 0x2021,
   0x02C6, 0x2030, 0x0160, 0x2039, 0x0152, 0xFFFD, 0x017D, 0xFFFD,
   0xFFFD, 0x2018, 0x2019, 0x201C, 0x201D, 0x2022, 0x2013, 0x2014,
   0x02DC, 0x2122, 0x0161, 0x203A, 0x0153, 0xFFFD, 0x017E, 0x0178]

/-- Final codepoint mapping of the numbered-entity machine: Windows-1252
compatibility remap for 0x80..0x9F, and U+FFFD for zero or out-of-range
values. -/
def numericRemap (cp : Nat) : Nat :=
  if 0x80 ≤ cp ∧ cp ≤ 0x9F then cp1252Table.getD (cp - 0x80) 0
  else if cp = 0 ∨ 0x10FFFF < cp then 0xFFFD
  else cp

/-- `hubbub_tokeniser_handle_numbered_entity`. -/
def hubbub_tokeniser_handle_numbered_entity (t : Tokeniser) : StepResult :=
  let c0 := t.input.peek
  if c0 = .ood then .next t false
  else
    let t :=
      if t.ctx.match_entity.base = 0 then
        if peekMasked c0 88 then
          { t with
            ctx.match_entity.base := 16,
            ctx.match_entity.str.len := t.ctx.match_entity.str.len + 1,
            input := t.input.advance }
        else { t with ctx.match_entity.base := 10 }
      else t
    let p := numberedLoop t (t.input.buffer.drop t.input.cursor)
    let t := p.1
    let c := p.2
    if c = .ood then .next t false
    else
      let t :=
        if c = .cp 59 then
          { t with
            ctx.match_entity.str.len := t.ctx.match_entity.str.len + 1
            input := t.input.advance }
        else t
      let t := { t with input := t.input.rewindIgnore t.ctx.match_entity.str.len }
      let t :=
        if t.ctx.match_entity.had_data then
          let cpf := numericRemap t.ctx.match_entity.codepoint
          { t with
            ctx.match_entity.codepoint := cpf,
            input := t.input.replaceRange t.ctx.match_entity.str.data_off
              t.ctx.match_entity.str.len cpf }
        else t
      .next { t with
        ctx.match_entity.done_setup := false,
        ctx.match_entity.complete := true,
        state := t.ctx.match_entity.return_state } true

/-- The trie-descent loop of `hubbub_tokeniser_handle_named_entity`.  The
list argument is the remaining buffer content from the cursor on. -/
def namedLoop (dict : List (List Nat × Nat)) : Tokeniser → List Nat → Tokeniser × Peeked
  | t, [] => (t, t.input.peek)
  | t, c :: rs =>
    if 0x7F < c then (t, .cp c)
    else
      match hubbub_entities_search_step dict c t.ctx.match_entity.context with
      | (.found v, ctx') =>
        let t := { t with
          ctx.match_entity.codepoint := v,
          ctx.match_entity.str.len := t.ctx.match_entity.str.len + 1,
          ctx.match_entity.prev_len := t.ctx.match_entity.str.len + 1,
          ctx.match_entity.context := ctx',
          input := t.input.advance }
        namedLoop dict t rs
      | (.more, ctx') =>
        let t := { t with
          ctx.match_entity.str.len := t.ctx.match_entity.str.len + 1,
          ctx.match_entity.context := ctx',
          input := t.input.advance }
        namedLoop dict t rs
      | (.dead, _) => (t, .cp c)

/-- `hubbub_tokeniser_handle_named_entity`. -/
def hubbub_tokeniser_handle_named_entity (dict : List (List Nat × Nat))
    (t : Tokeniser) : StepResult :=
  let p := namedLoop dict t (t.input.buffer.drop t.input.cursor)
  let t := p.1
  let c := p.2
  if c = .ood then .next t false
  else
    let t :=
      if t.ctx.match_entity.codepoint ≠ 0 ∧ c = .cp 59 ∧
          t.ctx.match_entity.prev_len = t.ctx.match_entity.str.len then
        { t with ctx.match_entity.prev_len := t.ctx.match_entity.prev_len + 1 }
      else t
    let t := { t with input := t.input.rewindIgnore t.ctx.match_entity.str.len }
    let t :=
      if t.ctx.match_entity.codepoint ≠ 0 then
        { t with
          input := t.input.replaceRange t.ctx.match_entity.str.data_off
            t.ctx.match_entity.prev_len t.ctx.match_entity.codepoint }
      else t
    .next { t with
      ctx.match_entity.done_setup := false,
      ctx.match_entity.complete := true,
      state := t.ctx.match_entity.return_state } true

/-- `hubbub_tokeniser_handle_entity_data`. -/
def hubbub_tokeniser_handle_entity_data (t : Tokeniser) : StepResult :=
  if t.ctx.match_entity.complete = false then
    hubbub_tokeniser_consume_entity t
  else
    match t.input.peek with
    | .ood => .aborted
    | .eof => .aborted
    | .cp _ =>
      let t := emitTok t (.character ⟨t.input.cursor, 1⟩)
      let t := { t with
        ctx.match_entity.complete := false,
        state := .data,
        input := t.input.advance }
      .next t true

/-- `hubbub_tokeniser_handle_entity_in_attribute_value`. -/
def hubbub_tokeniser_handle_entity_in_attribute_value (t : Tokeniser) : StepResult :=
  if t.ctx.match_entity.complete = false then
    hubbub_tokeniser_consume_entity t
  else
    match t.input.peek with
    | .ood => .aborted
    | .eof => .aborted
    | .cp _ =>
      let pos := t.input.cursor
      let t := { t with
        ctx.current_tag := modifyLastAttr t.ctx.current_tag fun a =>
          { a with value := extendSpan a.value pos },
        ctx.match_entity.complete := false,
        state := t.ctx.prev_state,
        input := t.input.advance }
      .next t true

/-! ## Tag states -/

/-- `hubbub_tokeniser_handle_tag_open`. -/
def hubbub_tokeniser_handle_tag_open (t : Tokeniser) : StepResult :=
  let c := t.input.peek
  if c = .ood then .next t false
  else if t.content_model = .rcdata ∨ t.content_model = .cdata then
    if c = .cp 47 then
      let t := { t with
        ctx.current_chars.len := t.ctx.current_chars.len + 1,
        state := .closeTagOpen,
        input := t.input.advance }
      .next t true
    else
      let t := emitTok t (.character t.ctx.current_chars)
      .next { t with state := .data } true
  else if t.content_model = .pcdata then
    match c with
    | .cp ch =>
      if ch = 33 then
        let t := { t with
          ctx.current_chars.len := t.ctx.current_chars.len + 1,
          state := .markupDeclarationOpen,
          input := t.input.advance }
        .next t true
      else if ch = 47 then
        let t := { t with
          ctx.current_chars.len := t.ctx.current_chars.len + 1,
          state := .closeTagOpen,
          input := t.input.advance }
        .next t true
      else if 65 ≤ ch ∧ ch ≤ 90 then
        let t := { t with input := t.input.lowercase }
        let t := { t with
          ctx.current_tag_type := .startTag,
          ctx.current_tag := {
            name := ⟨t.input.cursor, 1⟩
            n_attributes := 0
            attributes := t.ctx.current_tag.attributes },
          state := .tagName,
          input := t.input.advance }
        .next t true
      else if 97 ≤ ch ∧ ch ≤ 122 then
        let t := { t with
          ctx.current_tag_type := .startTag,
          ctx.current_tag := {
            name := ⟨t.input.cursor, 1⟩
            n_attributes := 0
            attributes := t.ctx.current_tag.attributes },
          state := .tagName,
          input := t.input.advance }
        .next t true
      else if ch = 62 then
        let t := { t with ctx.current_chars.len := t.ctx.current_chars.len + 1 }
        let t := emitTok t (.character t.ctx.current_chars)
        .next { t with state := .data, input := t.input.advance } true
      else if ch = 63 then
        let pos := t.input.cursor
        let t := { t with
          ctx.current_chars.len := t.ctx.current_chars.len + 1,
          ctx.current_comment := ⟨pos, 1⟩,
          state := .bogusComment,
          input := t.input.advance }
        .next t true
      else
        let t := emitTok t (.character t.ctx.current_chars)
        .next { t with state := .data } true
    | _ =>
      let t := emitTok t (.character t.ctx.current_chars)
      .next { t with state := .data } true
  else .next t true

/-- `hubbub_tokeniser_handle_close_tag_open`. -/
def hubbub_tokeniser_handle_close_tag_open (t : Tokeniser) : StepResult :=
  if t.content_model = .rcdata ∨ t.content_model = .cdata then
    .next { t with ctx.close_tag_match_tag.len := 0, state := .closeTagMatch } true
  else if t.content_model = .pcdata then
    match t.input.peek with
    | .cp ch =>
      if 65 ≤ ch ∧ ch ≤ 90 then
        let t := { t with input := t.input.lowercase }
        let t := { t with
          ctx.current_tag_type := .endTag,
          ctx.current_tag := {
            name := ⟨t.input.cursor, 1⟩
            n_attributes := 0
            attributes := t.ctx.current_tag.attributes },
          state := .tagName,
          input := t.input.advance }
        .next t true
      else if 97 ≤ ch ∧ ch ≤ 122 then
        let t := { t with
          ctx.current_tag_type := .endTag,
          ctx.current_tag := {
            name := ⟨t.input.cursor, 1⟩
            n_attributes := 0
            attributes := t.ctx.current_tag.attributes },
          state := .tagName,
          input := t.input.advance }
        .next t true
      else if ch = 62 then
        .next { t with state := .data, input := t.input.advance } true
      else
        let t := { t with
          ctx.current_comment := ⟨t.input.cursor, 1⟩,
          state := .bogusComment,
          input := t.input.advance }
        .next t true
    | .eof =>
      let t := emitTok t (.character t.ctx.current_chars)
      .next { t with state := .data } true
    | .ood => .next t false
  else .next t true

/-- Result of the close-tag-match loop: either an early return out of the
handler (the in-loop mismatch path), or falling through with the last
peeked value. -/
inductive CtmLoopRes where
  | ret (r : StepResult)
  | fall (t : Tokeniser) (c : Peeked)

/-- The matching loop of `hubbub_tokeniser_handle_close_tag_match`.  The
list argument is the remaining buffer content from the cursor on; the C
variable `c` is initialised to `0`, which the fall-through exit reproduces
when the loop guard fails immediately. -/
def ctmLoop : Tokeniser → List Nat → CtmLoopRes
  | t, [] =>
    if t.ctx.close_tag_match_tag.len < t.ctx.current_tag.name.len then
      .fall t t.input.peek
    else .fall t (.cp 0)
  | t, c :: rs =>
    if t.ctx.close_tag_match_tag.len < t.ctx.current_tag.name.len then
      let tg := extendSpan t.ctx.close_tag_match_tag t.input.cursor
      let t := { t with ctx.close_tag_match_tag := tg, input := t.input.advance }
      if t.ctx.current_tag.name.len < tg.len ∨
          (tg.len = t.ctx.current_tag.name.len ∧
            ¬ t.input.compareRangeCI t.ctx.current_tag.name.data_off tg.data_off
              t.ctx.current_tag.name.len) then
        match t.input.rewind tg.len with
        | none => .ret .aborted
        | some s =>
          let t := { t with input := s }
          let t := emitTok t (.character t.ctx.current_chars)
          .ret (.next { t with state := .data } true)
      else if tg.len = t.ctx.current_tag.name.len ∧
          t.input.compareRangeCI t.ctx.current_tag.name.data_off tg.data_off
            t.ctx.current_tag.name.len then
        .fall t (.cp c)
      else ctmLoop t rs
    else .fall t (.cp 0)

/-- The valid-terminator test on the character following a matched close
tag: tab, LF, VT, FF, space, `>`, `/`, `<`, or EOF. -/
def isCloseTagTerminator (c : Peeked) : Bool :=
  c = .cp 9 ∨ c = .cp 10 ∨ c = .cp 11 ∨ c = .cp 12 ∨ c = .cp 32 ∨
  c = .cp 62 ∨ c = .cp 47 ∨ c = .cp 60 ∨ c = .eof

/-- `hubbub_tokeniser_handle_close_tag_match`. -/
def hubbub_tokeniser_handle_close_tag_match (t : Tokeniser) : StepResult :=
  match ctmLoop t (t.input.buffer.drop t.input.cursor) with
  | .ret r => r
  | .fall t c =>
    if c = .ood then .next t false
    else if c = .eof then
      match t.input.rewind t.ctx.close_tag_match_tag.len with
      | none => .aborted
      | some s =>
        let t := { t with input := s }
        let t := emitTok t (.character t.ctx.current_chars)
        .next { t with state := .data } true
    else
      let c2 := t.input.peek
      if c2 = .ood then .next t false
      else
        match t.input.rewind t.ctx.close_tag_match_tag.len with
        | none => .aborted
        | some s =>
          let t := { t with input := s }
          if isCloseTagTerminator c2 then
            .next { t with content_model := .pcdata, state := .closeTagOpen } true
          else
            let t := emitTok t (.character t.ctx.current_chars)
            .next { t with state := .data } true

/-- `hubbub_tokeniser_handle_tag_name`. -/
def hubbub_tokeniser_handle_tag_name (t : Tokeniser) : StepResult :=
  match t.input.peek with
  | .ood => .next t false
  | .eof =>
    let t := emitCurrentTag t
    .next { t with state := .data } true
  | .cp ch =>
    if ch = 9 ∨ ch = 10 ∨ ch = 11 ∨ ch = 12 ∨ ch = 32 then
      .next { t with state := .beforeAttributeName, input := t.input.advance } true
    else if ch = 62 then
      let t := emitCurrentTag t
      .next { t with state := .data, input := t.input.advance } true
    else if 65 ≤ ch ∧ ch ≤ 90 then
      let t := { t with input := t.input.lowercase }
      let t := { t with
        ctx.current_tag.name.len := t.ctx.current_tag.name.len + 1,
        input := t.input.advance }
      .next t true
    else if ch = 60 then
      let t := emitCurrentTag t
      .next { t with state := .data } true
    else if ch = 47 then
      .next { t with state := .beforeAttributeName, input := t.input.advance } true
    else
      let t := { t with
        ctx.current_tag.name.len := t.ctx.current_tag.name.len + 1,
        input := t.input.advance }
      .next t true

/-- `hubbub_tokeniser_handle_before_attribute_name`. -/
def hubbub_tokeniser_handle_before_attribute_name (t : Tokeniser) : StepResult :=
  match t.input.peek with
  | .ood => .next t false
  | .eof =>
    let t := emitCurrentTag t
    .next { t with state := .data } true
  | .cp ch =>
    if ch = 9 ∨ ch = 10 ∨ ch = 11 ∨ ch = 12 ∨ ch = 32 then
      .next { t with input := t.input.advance } true
    else if ch = 62 then
      let t := emitCurrentTag t
      .next { t with state := .data, input := t.input.advance } true
    else if 65 ≤ ch ∧ ch ≤ 90 then
      let t := { t with input := t.input.lowercase }
      let t := { t with
        ctx.current_tag := pushAttr t.ctx.current_tag ⟨⟨t.input.cursor, 1⟩, ⟨0, 0⟩⟩,
        state := .attributeName,
        input := t.input.advance }
      .next t true
    else if ch = 47 then
      .next { t with input := t.input.advance } true
    else if ch = 60 then
      let t := emitCurrentTag t
      .next { t with state := .data } true
    else
      let t := { t with
        ctx.current_tag := pushAttr t.ctx.current_tag ⟨⟨t.input.cursor, 1⟩, ⟨0, 0⟩⟩,
        state := .attributeName,
        input := t.input.advance }
      .next t true

/-- `hubbub_tokeniser_handle_attribute_name`. -/
def hubbub_tokeniser_handle_attribute_name (t : Tokeniser) : StepResult :=
  match t.input.peek with
  | .ood => .next t false
  | .eof =>
    let t := emitCurrentTag t
    .next { t with state := .data } true
  | .cp ch =>
    if ch = 9 ∨ ch = 10 ∨ ch = 11 ∨ ch = 12 ∨ ch = 32 then
      .next { t with state := .afterAttributeName, input := t.input.advance } true
    else if ch = 61 then
      .next { t with state := .beforeAttributeValue, input := t.input.advance } true
    else if ch = 62 then
      let t := emitCurrentTag t
      .next { t with state := .data, input := t.input.advance } true
    else if 65 ≤ ch ∧ ch ≤ 90 then
      let t := { t with input := t.input.lowercase }
      let t := { t with
        ctx.current_tag := modifyLastAttr t.ctx.current_tag fun a =>
          { a with name.len := a.name.len + 1 },
        input := t.input.advance }
      .next t true
    else if ch = 47 then
      .next { t with state := .beforeAttributeName, input := t.input.advance } true
    else if ch = 60 then
      let t := emitCurrentTag t
      .next { t with state := .data } true
    else
      let t := { t with
        ctx.current_tag := modifyLastAttr t.ctx.current_tag fun a =>
          { a with name.len := a.name.len + 1 },
        input := t.input.advance }
      .next t true

/-- `hubbub_tokeniser_handle_after_attribute_name`. -/
def hubbub_tokeniser_handle_after_attribute_name (t : Tokeniser) : StepResult :=
  match t.input.peek with
  | .ood => .next t false
  | .eof =>
    let t := emitCurrentTag t
    .next { t with state := .data } true
  | .cp ch =>
    if ch = 9 ∨ ch = 10 ∨ ch = 11 ∨ ch = 12 ∨ ch = 32 then
      .next { t with input := t.input.advance } true
    else if ch = 61 then
      .next { t with state := .beforeAttributeValue, input := t.input.advance } true
    else if ch = 62 then
      let t := emitCurrentTag t
      .next { t with state := .data, input := t.input.advance } true
    else if 65 ≤ ch ∧ ch ≤ 90 then
      let t := { t with input := t.input.lowercase }
      let t := { t with
        ctx.current_tag := pushAttr t.ctx.current_tag ⟨⟨t.input.cursor, 1⟩, ⟨0, 0⟩⟩,
        state := .attributeName,
        input := t.input.advance }
      .next t true
    else if ch = 47 then
      .next { t with state := .beforeAttributeName, input := t.input.advance } true
    else if ch = 60 then
      let t := emitCurrentTag t
      .next { t with state := .data } true
    else
      let t := { t with input := t.input.lowercase }
      let t := { t with
        ctx.current_tag := pushAttr t.ctx.current_tag ⟨⟨t.input.cursor, 1⟩, ⟨0, 0⟩⟩,
        state := .attributeName,
        input := t.input.advance }
      .next t true

/-- `hubbub_tokeniser_handle_before_attribute_value`. -/
def hubbub_tokeniser_handle_before_attribute_value (t : Tokeniser) : StepResult :=
  match t.input.peek with
  | .ood => .next t false
  | .eof =>
    let t := emitCurrentTag t
    .next { t with state := .data } true
  | .cp ch =>
    if ch = 9 ∨ ch = 10 ∨ ch = 11 ∨ ch = 12 ∨ ch = 32 then
      .next { t with input := t.input.advance } true
    else if ch = 34 then
      .next { t with state := .attributeValueDQ, input := t.input.advance } true
    else if ch = 38 then
      .next { t with state := .attributeValueUQ } true
    else if ch = 39 then
      .next { t with state := .attributeValueSQ, input := t.input.advance } true
    else if ch = 62 then
      let t := emitCurrentTag t
      .next { t with state := .data, input := t.input.advance } true
    else if ch = 60 then
      let t := emitCurrentTag t
      .next { t with state := .data } true
    else
      let pos := t.input.cursor
      let t := { t with
        ctx.current_tag := modifyLastAttr t.ctx.current_tag fun a =>
          { a with value := ⟨pos, 1⟩ },
        state := .attributeValueUQ,
        input := t.input.advance }
      .next t true

/-- `hubbub_tokeniser_handle_attribute_value_dq`. -/
def hubbub_tokeniser_handle_attribute_value_dq (t : Tokeniser) : StepResult :=
  match t.input.peek with
  | .ood => .next t false
  | .eof =>
    let t := emitCurrentTag t
    .next { t with state := .data } true
  | .cp ch =>
    if ch = 34 then
      .next { t with state := .beforeAttributeName, input := t.input.advance } true
    else if ch = 38 then
      .next { t with ctx.prev_state := t.state, state := .entityInAttributeValue } true
    else
      let pos := t.input.cursor
      let t := { t with
        ctx.current_tag := modifyLastAttr t.ctx.current_tag fun a =>
          { a with value := extendSpan a.value pos },
        input := t.input.advance }
      .next t true

/-- `hubbub_tokeniser_handle_attribute_value_sq`. -/
def hubbub_tokeniser_handle_attribute_value_sq (t : Tokeniser) : StepResult :=
  match t.input.peek with
  | .ood => .next t false
  | .eof =>
    let t := emitCurrentTag t
    .next { t with state := .data } true
  | .cp ch =>
    if ch = 39 then
      .next { t with state := .beforeAttributeName, input := t.input.advance } true
    else if ch = 38 then
      .next { t with ctx.prev_state := t.state, state := .entityInAttributeValue } true
    else
      let pos := t.input.cursor
      let t := { t with
        ctx.current_tag := modifyLastAttr t.ctx.current_tag fun a =>
          { a with value := extendSpan a.value pos },
        input := t.input.advance }
      .next t true

/-- `hubbub_tokeniser_handle_attribute_value_uq`. -/
def hubbub_tokeniser_handle_attribute_value_uq (t : Tokeniser) : StepResult :=
  match t.input.peek with
  | .ood => .next t false
  | .eof =>
    let t := emitCurrentTag t
    .next { t with state := .data } true
  | .cp ch =>
    if ch = 9 ∨ ch = 10 ∨ ch = 11 ∨ ch = 12 ∨ ch = 32 then
      .next { t with state := .beforeAttributeName, input := t.input.advance } true
    else if ch = 38 then
      .next { t with ctx.prev_state := t.state, state := .entityInAttributeValue } true
    else if ch = 62 then
      let t := emitCurrentTag t
      .next { t with state := .data, input := t.input.advance } true
    else if ch = 60 then
      let t := emitCurrentTag t
      .next { t with state := .data } true
    else
      let pos := t.input.cursor
      let t := { t with
        ctx.current_tag := modifyLastAttr t.ctx.current_tag fun a =>
          { a with value := extendSpan a.value pos },
        input := t.input.advance }
      .next t true

/-! ## Comment and doctype states -/

/-- The accumulation loop of `hubbub_tokeniser_handle_bogus_comment`. -/
def bogusLoop : Tokeniser → List Nat → Tokeniser × Peeked
  | t, [] => (t, t.input.peek)
  | t, c :: rs =>
    if c = 62 then ({ t with input := t.input.advance }, .cp c)
    else
      let t := { t with
        ctx.current_comment := extendSpan t.ctx.current_comment t.input.cursor,
        input := t.input.advance }
      bogusLoop t rs

/-- `hubbub_tokeniser_handle_bogus_comment`. -/
def hubbub_tokeniser_handle_bogus_comment (t : Tokeniser) : StepResult :=
  let p := bogusLoop t (t.input.buffer.drop t.input.cursor)
  let t := p.1
  let c := p.2
  if c = .ood then .next t false
  else
    let t := emitTok t (.comment t.ctx.current_comment)
    .next { t with state := .data } true

/-- `hubbub_tokeniser_handle_markup_declaration_open`. -/
def hubbub_tokeniser_handle_markup_declaration_open (t : Tokeniser) : StepResult :=
  let c := t.input.peek
  if c = .ood then .next t false
  else if c = .cp 45 then
    .next { t with state := .commentStart, input := t.input.advance } true
  else if peekMasked c 68 then
    let t := { t with input := t.input.uppercase }
    let t := { t with
      ctx.match_doctype_count := 1,
      state := .matchDoctype,
      input := t.input.advance }
    .next t true
  else
    .next { t with ctx.current_comment := ⟨0, 0⟩, state := .bogusComment } true

/-- `hubbub_tokeniser_handle_comment_start`. -/
def hubbub_tokeniser_handle_comment_start (t : Tokeniser) : StepResult :=
  let c := t.input.peek
  if c = .ood then .next t false
  else
    let t := { t with ctx.current_comment := ⟨0, 0⟩ }
    if c = .cp 45 then
      .next { t with state := .comment, input := t.input.advance } true
    else
      .next { t with input := t.input.pushBack 45, state := .bogusComment } true

/-- `hubbub_tokeniser_handle_comment`. -/
def hubbub_tokeniser_handle_comment (t : Tokeniser) : StepResult :=
  match t.input.peek with
  | .ood => .next t false
  | .eof =>
    let t := emitTok t (.comment t.ctx.current_comment)
    .next { t with state := .data } true
  | .cp ch =>
    if ch = 45 then
      .next { t with state := .commentDash, input := t.input.advance } true
    else
      let t := { t with
        ctx.current_comment := extendSpan t.ctx.current_comment t.input.cursor,
        input := t.input.advance }
      .next t true

/-- `hubbub_tokeniser_handle_comment_dash`. -/
def hubbub_tokeniser_handle_comment_dash (t : Tokeniser) : StepResult :=
  match t.input.peek with
  | .ood => .next t false
  | .eof =>
    let t := emitTok t (.comment t.ctx.current_comment)
    .next { t with state := .data } true
  | .cp ch =>
    if ch = 45 then
      .next { t with state := .commentEnd, input := t.input.advance } true
    else
      let pos := t.input.cursor
      let com :=
        if t.ctx.current_comment.len = 0 then HubbubString.mk pos 1
        else { t.ctx.current_comment with
          len := 1 + (pos - t.ctx.current_comment.data_off) }
      let t := { t with
        ctx.current_comment := com,
        state := .comment,
        input := t.input.advance }
      .next t true

/-- `hubbub_tokeniser_handle_comment_end`. -/
def hubbub_tokeniser_handle_comment_end (t : Tokeniser) : StepResult :=
  match t.input.peek with
  | .ood => .next t false
  | .eof =>
    let t := emitTok t (.comment t.ctx.current_comment)
    .next { t with state := .data } true
  | .cp ch =>
    if ch = 62 then
      let t := emitTok t (.comment t.ctx.current_comment)
      .next { t with state := .data, input := t.input.advance } true
    else if ch = 45 then
      let pos := t.input.cursor
      let com :=
        if t.ctx.current_comment.len = 0 then HubbubString.mk pos 1
        else { t.ctx.current_comment with
          len := pos - t.ctx.current_comment.data_off }
      let t := { t with
        ctx.current_comment := com,
        state := .commentEnd,
        input := t.input.advance }
      .next t true
    else
      let pos := t.input.cursor
      let com :=
        if t.ctx.current_comment.len = 0 then HubbubString.mk pos 1
        else { t.ctx.current_comment with
          len := 1 + (pos - t.ctx.current_comment.data_off) }
      let t := { t with
        ctx.current_comment := com,
        state := .comment,
        input := t.input.advance }
      .next t true

/-- The letters pushed back by the mismatch arm of
`hubbub_tokeniser_handle_match_doctype`, in push order, for each value of
`match_doctype.count` (the fall-through `switch`). -/
def doctypePushList : Nat → List Nat
  | 1 => [68]
  | 2 => [79, 68]
  | 3 => [67, 79, 68]
  | 4 => [84, 67, 79, 68]
  | 5 => [89, 84, 67, 79, 68]
  | 6 => [80, 89, 84, 67, 79, 68]
  | _ => []

/-- Push back a sequence of codepoints, first element first. -/
def pushBackSeq (s : Inputstream) (l : List Nat) : Inputstream :=
  l.foldl Inputstream.pushBack s

/-- `hubbub_tokeniser_handle_match_doctype`. -/
def hubbub_tokeniser_handle_match_doctype (t : Tokeniser) : StepResult :=
  let c := t.input.peek
  if c = .ood then .next t false
  else if t.ctx.match_doctype_count = 1 ∧ peekMasked c 79 then
    let t := { t with input := t.input.uppercase }
    .next { t with ctx.match_doctype_count := 2, input := t.input.advance } true
  else if t.ctx.match_doctype_count = 2 ∧ peekMasked c 67 then
    let t := { t with input := t.input.uppercase }
    .next { t with ctx.match_doctype_count := 3, input := t.input.advance } true
  else if t.ctx.match_doctype_count = 3 ∧ peekMasked c 84 then
    let t := { t with input := t.input.uppercase }
    .next { t with ctx.match_doctype_count := 4, input := t.input.advance } true
  else if t.ctx.match_doctype_count = 4 ∧ peekMasked c 89 then
    let t := { t with input := t.input.uppercase }
    .next { t with ctx.match_doctype_count := 5, input := t.input.advance } true
  else if t.ctx.match_doctype_count = 5 ∧ peekMasked c 80 then
    let t := { t with input := t.input.uppercase }
    .next { t with ctx.match_doctype_count := 6, input := t.input.advance } true
  else if t.ctx.match_doctype_count = 6 ∧ peekMasked c 69 then
    let t := { t with input := t.input.uppercase }
    .next { t with state := .doctype, input := t.input.advance } true
  else
    let t := { t with
      input := pushBackSeq t.input (doctypePushList t.ctx.match_doctype_count) }
    .next { t with ctx.current_comment := ⟨0, 0⟩, state := .bogusComment } true

/-- `hubbub_tokeniser_handle_doctype`. -/
def hubbub_tokeniser_handle_doctype (t : Tokeniser) : StepResult :=
  let c := t.input.peek
  if c = .ood then .next t false
  else
    let t :=
      if c = .cp 9 ∨ c = .cp 10 ∨ c = .cp 11 ∨ c = .cp 12 ∨ c = .cp 32 then
        { t with input := t.input.advance }
      else t
    .next { t with state := .beforeDoctypeName } true

/-- `hubbub_tokeniser_handle_before_doctype_name`. -/
def hubbub_tokeniser_handle_before_doctype_name (t : Tokeniser) : StepResult :=
  match t.input.peek with
  | .ood => .next t false
  | .eof =>
    let t := emitTok t (.doctype t.ctx.current_doctype)
    .next { t with state := .data } true
  | .cp ch =>
    if ch = 9 ∨ ch = 10 ∨ ch = 11 ∨ ch = 12 ∨ ch = 32 then
      .next { t with input := t.input.advance } true
    else if 97 ≤ ch ∧ ch ≤ 122 then
      let t := { t with input := t.input.uppercase }
      let t := { t with
        ctx.current_doctype := { name := ⟨t.input.cursor, 1⟩, correct := false },
        state := .doctypeName,
        input := t.input.advance }
      .next t true
    else if ch = 62 then
      let t := emitTok t (.doctype t.ctx.current_doctype)
      .next { t with state := .data, input := t.input.advance } true
    else
      let t := { t with
        ctx.current_doctype := { name := ⟨t.input.cursor, 1⟩, correct := false },
        state := .doctypeName,
        input := t.input.advance }
      .next t true

/-- The ASCII literal `HTML`. -/
def hubbubHTML : List Nat := [72, 84, 77, 76]

/-- The current doctype with its `correct` flag recomputed as in the `>`
branches of the doctype-name and after-doctype-name handlers: a
case-insensitive comparison of the name span against the literal `HTML`. -/
def doctypeWithCorrect (t : Tokeniser) : HubbubDoctype :=
  { t.ctx.current_doctype with
    correct := t.input.compareRangeAscii t.ctx.current_doctype.name.data_off
      t.ctx.current_doctype.name.len hubbubHTML }

/-- `hubbub_tokeniser_handle_doctype_name`. -/
def hubbub_tokeniser_handle_doctype_name (t : Tokeniser) : StepResult :=
  match t.input.peek with
  | .ood => .next t false
  | .eof =>
    let t := emitTok t (.doctype t.ctx.current_doctype)
    .next { t with state := .data } true
  | .cp ch =>
    if ch = 9 ∨ ch = 10 ∨ ch = 11 ∨ ch = 12 ∨ ch = 32 then
      .next { t with state := .afterDoctypeName, input := t.input.advance } true
    else if ch = 62 then
      let t := emitTok t (.doctype (doctypeWithCorrect t))
      .next { t with state := .data, input := t.input.advance } true
    else if 97 ≤ ch ∧ ch ≤ 122 then
      let t := { t with input := t.input.uppercase }
      let t := { t with
        ctx.current_doctype.name.len := t.ctx.current_doctype.name.len + 1,
        input := t.input.advance }
      .next t true
    else
      let t := { t with
        ctx.current_doctype.name.len := t.ctx.current_doctype.name.len + 1,
        input := t.input.advance }
      .next t true

/-- `hubbub_tokeniser_handle_after_doctype_name`. -/
def hubbub_tokeniser_handle_after_doctype_name (t : Tokeniser) : StepResult :=
  match t.input.peek with
  | .ood => .next t false
  | .eof =>
    let t := emitTok t (.doctype t.ctx.current_doctype)
    .next { t with state := .data } true
  | .cp ch =>
    if ch = 9 ∨ ch = 10 ∨ ch = 11 ∨ ch = 12 ∨ ch = 32 then
      .next { t with input := t.input.advance } true
    else if ch = 62 then
      let t := emitTok t (.doctype (doctypeWithCorrect t))
      .next { t with state := .data, input := t.input.advance } true
    else
      let t := { t with
        ctx.current_doctype.correct := false,
        state := .bogusDoctype,
        input := t.input.advance }
      .next t true

/-- `hubbub_tokeniser_handle_bogus_doctype`. -/
def hubbub_tokeniser_handle_bogus_doctype (t : Tokeniser) : StepResult :=
  match t.input.peek with
  | .ood => .next t false
  | .eof =>
    let t := emitTok t (.doctype t.ctx.current_doctype)
    .next { t with state := .data } true
  | .cp ch =>
    if ch = 62 then
      let t := emitTok t (.doctype t.ctx.current_doctype)
      .next { t with state := .data, input := t.input.advance } true
    else
      .next { t with input := t.input.advance } true

/-! ## The run loop and the public entry points -/

/-- One dispatch of the `switch (tokeniser->state)` in
`hubbub_tokeniser_run`. -/
def hubbub_tokeniser_step (dict : List (List Nat × Nat)) (t : Tokeniser) : StepResult :=
  match t.state with
  | .data => hubbub_tokeniser_handle_data t
  | .entityData => hubbub_tokeniser_handle_entity_data t
  | .tagOpen => hubbub_tokeniser_handle_tag_open t
  | .closeTagOpen => hubbub_tokeniser_handle_close_tag_open t
  | .closeTagMatch => hubbub_tokeniser_handle_close_tag_match t
  | .tagName => hubbub_tokeniser_handle_tag_name t
  | .beforeAttributeName => hubbub_tokeniser_handle_before_attribute_name t
  | .attributeName => hubbub_tokeniser_handle_attribute_name t
  | .afterAttributeName => hubbub_tokeniser_handle_after_attribute_name t
  | .beforeAttributeValue => hubbub_tokeniser_handle_before_attribute_value t
  | .attributeValueDQ => hubbub_tokeniser_handle_attribute_value_dq t
  | .attributeValueSQ => hubbub_tokeniser_handle_attribute_value_sq t
  | .attributeValueUQ => hubbub_tokeniser_handle_attribute_value_uq t
  | .entityInAttributeValue => hubbub_tokeniser_handle_entity_in_attribute_value t
  | .bogusComment => hubbub_tokeniser_handle_bogus_comment t
  | .markupDeclarationOpen => hubbub_tokeniser_handle_markup_declaration_open t
  | .commentStart => hubbub_tokeniser_handle_comment_start t
  | .comment => hubbub_tokeniser_handle_comment t
  | .commentDash => hubbub_tokeniser_handle_comment_dash t
  | .commentEnd => hubbub_tokeniser_handle_comment_end t
  | .matchDoctype => hubbub_tokeniser_handle_match_doctype t
  | .doctype => hubbub_tokeniser_handle_doctype t
  | .beforeDoctypeName => hubbub_tokeniser_handle_before_doctype_name t
  | .doctypeName => hubbub_tokeniser_handle_doctype_name t
  | .afterDoctypeName => hubbub_tokeniser_handle_after_doctype_name t
  | .bogusDoctype => hubbub_tokeniser_handle_bogus_doctype t
  | .numberedEntity => hubbub_tokeniser_handle_numbered_entity t
  | .namedEntity => hubbub_tokeniser_handle_named_entity dict t

/-- The `while (cont)` loop of `hubbub_tokeniser_run`; `none` marks an
`abort()`. -/
def runLoop (dict : List (List Nat × Nat)) : Nat → Tokeniser → Option Tokeniser
  | 0, t => some t
  | fuel + 1, t =>
    match hubbub_tokeniser_step dict t with
    | .aborted => none
    | .next t' cont => if cont then runLoop dict fuel t' else some t'

/-- `hubbub_tokeniser_run` including its null-handle guard. -/
def hubbub_tokeniser_run (dict : List (List Nat × Nat)) (fuel : Nat)
    (t? : Option Tokeniser) : HubbubError × Option Tokeniser :=
  match t? with
  | none => (.badparm, none)
  | some t => (.ok, runLoop dict fuel t)

/-- Option parameter union for `hubbub_tokeniser_setopt`.
Modelled from the spec: section 6.4 configuration options. -/
structure OptParams where
  handler : Option Nat
  pw : Nat
  content_model : ContentModel
deriving DecidableEq, Repr

/-- Option type constant.  Modelled from the spec: the option enumeration
of section 6.4 (the numeric values are representation choices). -/
def HUBBUB_TOKENISER_TOKEN_HANDLER : Nat := 0

/-- Option type constant for the buffer-relocation callback. -/
def HUBBUB_TOKENISER_BUFFER_HANDLER : Nat := 1

/-- Option type constant for the error callback. -/
def HUBBUB_TOKENISER_ERROR_HANDLER : Nat := 2

/-- Option type constant for the content-model setting. -/
def HUBBUB_TOKENISER_CONTENT_MODEL : Nat := 3

/-- `hubbub_tokeniser_setopt`: null tokeniser or null params give
`HUBBUB_BADPARM`; otherwise the `switch` updates the selected option (the
buffer-handler case immediately notifies the new handler with the cached
buffer), and an unrecognised option type matches no `case` and falls
through to `return HUBBUB_OK`. -/
def hubbub_tokeniser_setopt (t? : Option Tokeniser) (ty : Nat)
    (p? : Option OptParams) : HubbubError × Option Tokeniser :=
  match t?, p? with
  | some t, some p =>
    let t :=
      if ty = HUBBUB_TOKENISER_TOKEN_HANDLER then
        { t with token_handler := p.handler, token_pw := p.pw }
      else if ty = HUBBUB_TOKENISER_BUFFER_HANDLER then
        { t with
          buffer_handler := p.handler
          buffer_pw := p.pw
          buffer_notices := t.buffer_notices ++ [t.input_buffer_len] }
      else if ty = HUBBUB_TOKENISER_ERROR_HANDLER then
        { t with error_handler := p.handler, error_pw := p.pw }
      else if ty = HUBBUB_TOKENISER_CONTENT_MODEL then
        { t with content_model := p.content_model }
      else t
    (.ok, some t)
  | _, _ => (.badparm, t?)

/-- `hubbub_tokeniser_create`: fresh tokeniser over an input stream, with
all context zeroed (`memset`) and no handlers registered. -/
def hubbub_tokeniser_create (input : Inputstream) : Tokeniser where
  state := .data
  content_model := .pcdata
  input := input
  input_buffer_len := input.buffer.length
  ctx := {
    current_tag_type := .startTag
    current_tag := { name := ⟨0, 0⟩, n_attributes := 0, attributes := [] }
    current_comment := ⟨0, 0⟩
    current_doctype := { name := ⟨0, 0⟩, correct := false }
    current_chars := ⟨0, 0⟩
    prev_state := .data
    close_tag_match_tag := ⟨0, 0⟩
    match_doctype_count := 0
    match_entity := {
      str := ⟨0, 0⟩
      base := 0
      codepoint := 0
      had_data := false
      return_state := .data
      complete := false
      done_setup := false
      context := []
      prev_len := 0 } }
  token_handler := none
  token_pw := 0
  buffer_handler := none
  buffer_pw := 0
  error_handler := none
  error_pw := 0
  buffer_notices := []
  output := []

/-- The embedder supplying more document data: the input buffer grows, the
tokeniser's buffer-moved handler refreshes the cached buffer description
and forwards the notification.  Modelled from the spec: the input stream's
relocation listener contract. -/
def tokeniserAppendData (t : Tokeniser) (xs : List Nat) (isLast : Bool) : Tokeniser :=
  let input := { t.input with buffer := t.input.buffer ++ xs, hadEOF := isLast }
  let t := { t with input := input, input_buffer_len := input.buffer.length }
  match t.buffer_handler with
  | some _ => { t with buffer_notices := t.buffer_notices ++ [t.input_buffer_len] }
  | none => t

/-- Codepoints of a string of ASCII characters (convenience for concrete
inputs and name tables). -/
def str2cps (s : String) : List Nat := s.data.map (fun c => c.toNat)

/-! ## Tree builder: the `IN_FOREIGN_CONTENT` insertion mode -/

/-- `hubbub_ns`: the namespaces distinguished by the tree builder. -/
inductive HubbubNS where
  | html
  | mathml
  | svg
deriving DecidableEq, Repr

/-- `element_type`: the element-name enumeration, restricted to the
constructors used by the `in_foreign_content` handler plus `UNKNOWN`. -/
inductive ElementType where
  | B | BIG | BLOCKQUOTE | BODY | BR | CENTER | CODE | DD | DIV | DL | DT
  | EM | EMBED | FONT | H1 | H2 | H3 | H4 | H5 | H6 | HEAD | HR | I | IMG
  | LI | LISTING | MENU | META | NOBR | OL | P | PRE | RUBY | S | SMALL
  | SPAN | STRONG | STRIKE | SUB | SUP | TABLE | TT | U | UL | VAR
  | MGLYPH | MALIGNMARK | MI | MO | MN | MS | MTEXT
  | APPLET | CAPTION | HTML | TD | TH | BUTTON | MARQUEE | OBJECT
  | SVG | TITLE | UNKNOWN
deriving DecidableEq, Repr

/-- The insertion modes (spec section 3.6). -/
inductive InsertionMode where
  | initial
  | beforeHtml
  | beforeHead
  | inHead
  | inHeadNoscript
  | afterHead
  | inBody
  | inCdataRcdata
  | inTable
  | inCaption
  | inColumnGroup
  | inTableBody
  | inRow
  | inCell
  | inSelect
  | inSelectInTable
  | afterBody
  | inFrameset
  | afterFrameset
  | afterAfterBody
  | afterAfterFrameset
  | inForeignContent
deriving DecidableEq, Repr

/-- `element_context`: one entry of the stack of open elements. -/
structure ElementContext where
  ns : HubbubNS
  etype : ElementType
  node : Nat
deriving DecidableEq, Repr

/-- The tree builder's view of one token: tag names arrive as resolved
text. -/
inductive TBToken where
  | character (data : List Nat)
  | startTag (name : List Nat) (selfClosing : Bool)
  | endTag (name : List Nat)
  | comment (data : List Nat)
  | doctypeTok
  | eofTok
deriving DecidableEq, Repr

/-- Tree-handler operations issued by the insertion paths of the foreign
content mode (observable effects on the document tree). -/
inductive TBEffect where
  | appendText (data : List Nat)
  | appendComment (data : List Nat) (node : Nat)
  | insertElement (ns : HubbubNS) (name : List Nat) (push : Bool)
deriving DecidableEq, Repr

/-- `hubbub_treebuilder` (the context fields the foreign-content mode
touches).  `element_stack` is bottom-first, so the current node is the last
entry; `unrefs` records the nodes released through the tree handler's
`unref_node`; `next_node` numbers newly created nodes. -/
structure Treebuilder where
  mode : InsertionMode
  second_mode : InsertionMode
  element_stack : List ElementContext
  unrefs : List Nat
  effects : List TBEffect
  next_node : Nat
deriving DecidableEq, Repr

/-- The entry at `element_stack[current_node]`. -/
def Treebuilder.top (tb : Treebuilder) : ElementContext :=
  tb.element_stack.getLastD ⟨.html, .UNKNOWN, 0⟩

/-- Modelled from the spec: the element-name-to-type mapping of the shared
data model, restricted to the names relevant to foreign content. -/
def elementTypeTable : List (List Nat × ElementType) :=
  [(str2cps "b", .B), (str2cps "big", .BIG), (str2cps "blockquote", .BLOCKQUOTE),
   (str2cps "body", .BODY), (str2cps "br", .BR), (str2cps "center", .CENTER),
   (str2cps "code", .CODE), (str2cps "dd", .DD), (str2cps "div", .DIV),
   (str2cps "dl", .DL), (str2cps "dt", .DT), (str2cps "em", .EM),
   (str2cps "embed", .EMBED), (str2cps "font", .FONT), (str2cps "h1", .H1),
   (str2cps "h2", .H2), (str2cps "h3", .H3), (str2cps "h4", .H4),
   (str2cps "h5", .H5), (str2cps "h6", .H6), (str2cps "head", .HEAD),
   (str2cps "hr", .HR), (str2cps "i", .I), (str2cps "img", .IMG),
   (str2cps "li", .LI), (str2cps "listing", .LISTING), (str2cps "menu", .MENU),
   (str2cps "meta", .META), (str2cps "nobr", .NOBR), (str2cps "ol", .OL),
   (str2cps "p", .P), (str2cps "pre", .PRE), (str2cps "ruby", .RUBY),
   (str2cps "s", .S), (str2cps "small", .SMALL), (str2cps "span", .SPAN),
   (str2cps "strong", .STRONG), (str2cps "strike", .STRIKE), (str2cps "sub", .SUB),
   (str2cps "sup", .SUP), (str2cps "table", .TABLE), (str2cps "tt", .TT),
   (str2cps "u", .U), (str2cps "ul", .UL), (str2cps "var", .VAR),
   (str2cps "mglyph", .MGLYPH), (str2cps "malignmark", .MALIGNMARK),
   (str2cps "mi", .MI), (str2cps "mo", .MO), (str2cps "mn", .MN),
   (str2cps "ms", .MS), (str2cps "mtext", .MTEXT), (str2cps "applet", .APPLET),
   (str2cps "caption", .CAPTION), (str2cps "html", .HTML), (str2cps "td", .TD),
   (str2cps "th", .TH), (str2cps "button", .BUTTON), (str2cps "marquee", .MARQUEE),
   (str2cps "object", .OBJECT), (str2cps "svg", .SVG), (str2cps "title", .TITLE)]

/-- `element_type_from_name`. -/
def element_type_from_name (name : List Nat) : ElementType :=
  match elementTypeTable.find? (fun e => e.1 == name) with
  | some e => e.2
  | none => .UNKNOWN

/-- Modelled from the spec: the scoping elements (`applet caption html
table td th button marquee object`). -/
def is_scoping_element (ty : ElementType) : Bool :=
  ty = .APPLET ∨ ty = .CAPTION ∨ ty = .HTML ∨ ty = .TABLE ∨ ty = .TD ∨
  ty = .TH ∨ ty = .BUTTON ∨ ty = .MARQUEE ∨ ty = .OBJECT

/-- The walk of `element_in_scope_in_non_html_ns` over the stack entries at
indices `current_node` down to `1`, top first. -/
def scopeScan : List ElementContext → Bool
  | [] => false
  | e :: rest =>
    if e.etype = .TABLE ∨ is_scoping_element e.etype then false
    else if e.ns ≠ .html then true
    else scopeScan rest

/-- `element_in_scope_in_non_html_ns`. -/
def element_in_scope_in_non_html_ns (tb : Treebuilder) : Bool :=
  scopeScan (tb.element_stack.drop 1).reverse

/-- The pop/unref loop of `foreign_break_out`, on the top-first stack:
returns the remaining stack (top first) and the nodes unreferenced, in pop
order. -/
def breakOutPops : List ElementContext → List ElementContext × List Nat
  | [] => ([], [])
  | e :: rest =>
    if e.ns ≠ .html then
      let p := breakOutPops rest
      (p.1, e.node :: p.2)
    else (e :: rest, [])

/-- `foreign_break_out`: pop (and unref) elements until the current node is
in the HTML namespace, then switch to the secondary insertion mode. -/
def foreign_break_out (tb : Treebuilder) : Treebuilder :=
  let p := breakOutPops tb.element_stack.reverse
  { tb with
    element_stack := p.1.reverse
    unrefs := tb.unrefs ++ p.2
    mode := tb.second_mode }

/-- `process_as_in_secondary`: run the dispatcher (supplied as
`secondary`, since `hubbub_treebuilder_token_handler` lives outside these
sources) with the mode set to the secondary mode, then restore
`IN_FOREIGN_CONTENT` unless the handler changed the mode, and leave foreign
content entirely when no non-HTML element remains in scope. -/
def process_as_in_secondary (secondary : Treebuilder → TBToken → Treebuilder)
    (tb : Treebuilder) (token : TBToken) : Treebuilder :=
  let tb := secondary { tb with mode := tb.second_mode } token
  let tb :=
    if tb.mode = tb.second_mode then { tb with mode := .inForeignContent } else tb
  if tb.mode = .inForeignContent ∧ ¬ element_in_scope_in_non_html_ns tb then
    { tb with mode := tb.second_mode }
  else tb

/-- `insert_element`: create an element in the given namespace, append it,
and push it onto the stack (modelled from the spec's element-stack
contract; the tree-handler calls are recorded as effects). -/
def insert_element (tb : Treebuilder) (ns : HubbubNS) (name : List Nat) : Treebuilder :=
  { tb with
    effects := tb.effects ++ [.insertElement ns name true]
    element_stack := tb.element_stack ++ [⟨ns, element_type_from_name name, tb.next_node⟩]
    next_node := tb.next_node + 1 }

/-- `insert_element_no_push`: as `insert_element` but without pushing the
new element. -/
def insert_element_no_push (tb : Treebuilder) (ns : HubbubNS) (name : List Nat) :
    Treebuilder :=
  { tb with effects := tb.effects ++ [.insertElement ns name false] }

/-- The HTML-only tag-type test of the break-out arm of
`handle_in_foreign_content`, transcribed from the source's disjunction. -/
def isForeignBreakoutType (type : ElementType) : Bool :=
  type = .B ∨ type = .BIG ∨ type = .BLOCKQUOTE ∨ type = .BODY ∨ type = .BR ∨
  type = .CENTER ∨ type = .CODE ∨ type = .DD ∨ type = .DIV ∨ type = .DL ∨
  type = .DT ∨ type = .EM ∨ type = .EMBED ∨ type = .FONT ∨ type = .H1 ∨
  type = .H2 ∨ type = .H3 ∨ type = .H4 ∨ type = .H5 ∨ type = .H6 ∨
  type = .HEAD ∨ type = .HR ∨ type = .I ∨ type = .IMG ∨ type = .LI ∨
  type = .LISTING ∨ type = .MENU ∨ type = .META ∨ type = .NOBR ∨ type = .OL ∨
  type = .P ∨ type = .PRE ∨ type = .RUBY ∨ type = .S ∨ type = .SMALL ∨
  type = .SPAN ∨ type = .STRONG ∨ type = .STRIKE ∨ type = .SUB ∨ type = .SUP ∨
  type = .TABLE ∨ type = .TT ∨ type = .U ∨ type = .UL ∨ type = .VAR

/-- `handle_in_foreign_content`.  The returned `Bool` is the handler's
`reprocess` flag; `secondary` stands for the dispatcher entry point invoked
by `process_as_in_secondary`. -/
def handle_in_foreign_content (secondary : Treebuilder → TBToken → Treebuilder)
    (tb : Treebuilder) (token : TBToken) : Treebuilder × Bool :=
  match token with
  | .character data => ({ tb with effects := tb.effects ++ [.appendText data] }, false)
  | .comment data =>
    ({ tb with effects := tb.effects ++ [.appendComment data tb.top.node] }, false)
  | .doctypeTok => (tb, false)
  | .startTag name selfClosing =>
    let cur_node_ns := tb.top.ns
    let cur_node := tb.top.etype
    let type := element_type_from_name name
    if cur_node_ns = .html ∨
        (cur_node_ns = .mathml ∧ (type ≠ .MGLYPH ∧ type ≠ .MALIGNMARK) ∧
          (cur_node = .MI ∨ cur_node = .MO ∨ cur_node = .MN ∨ cur_node = .MS ∨
            cur_node = .MTEXT)) then
      (process_as_in_secondary secondary tb token, false)
    else if isForeignBreakoutType type then
      (foreign_break_out tb, false)
    else
      if selfClosing then (insert_element_no_push tb cur_node_ns name, false)
      else (insert_element tb cur_node_ns name, false)
  | .endTag _ => (process_as_in_secondary secondary tb token, false)
  | .eofTok => (foreign_break_out tb, false)

/-! ## Concrete fixtures used by the claim theorems -/

/-- A small entity dictionary for concrete runs (names are ASCII; the trie
interface itself is dictionary-generic). -/
def egDict : List (List Nat × Nat) :=
  [(str2cps "amp", 38), (str2cps "amp;", 38), (str2cps "lt", 60),
   (str2cps "lt;", 60), (str2cps "gt;", 62), (str2cps "ampere;", 9735)]

/-- A tokeniser over a complete input with a token handler registered. -/
def mkRunTok (input : List Nat) : Tokeniser :=
  { hubbub_tokeniser_create ⟨input, 0, true⟩ with token_handler := some 1 }

/-- The token stream produced by running the tokeniser to completion on a
complete input. -/
def runOutput (dict : List (List Nat × Nat)) (fuel : Nat) (input : List Nat) :
    Option (List OutToken) :=
  (runLoop dict fuel (mkRunTok input)).map (fun t => t.output)

/-- Phase one of the two-phase CDATA scenario of C3: a tokeniser with a
token handler runs over the partial input `<script>` (more data pending),
emitting the start tag and stopping for lack of data. -/
def c3phase1 : Option Tokeniser :=
  runLoop [] 100 { hubbub_tokeniser_create ⟨str2cps "<script>", 0, false⟩ with
    token_handler := some 1 }

/-- Phase two: the embedder switches the content model to CDATA (as the
tree builder does after a `<script>` start tag), appends `</scriptx>` as
the final data, and runs the tokeniser to completion. -/
def c3phase2 : Option Tokeniser :=
  match c3phase1 with
  | some t =>
    match hubbub_tokeniser_setopt (some t) HUBBUB_TOKENISER_CONTENT_MODEL
        (some ⟨none, 0, .cdata⟩) with
    | (_, some t2) => runLoop [] 200 (tokeniserAppendData t2 (str2cps "</scriptx>") true)
    | (_, none) => none
  | none => none

/-- A concrete tokeniser entering the close-tag-match state: buffer `p>x`,
cursor at the start, last-opened tag name `p`. -/
def c3wT : Tokeniser :=
  { mkRunTok (str2cps "p>x") with
    state := .closeTagMatch
    ctx.current_tag.name := ⟨0, 1⟩ }

/-- The tokeniser the close-tag-match handler produces from `c3wT`. -/
def c3wT2 : Tokeniser :=
  match hubbub_tokeniser_handle_close_tag_match c3wT with
  | .next t2 _ => t2
  | .aborted => c3wT

/-- The tokeniser state just after `&#` of `&#128;` has been consumed:
entering the numbered-entity state with the match span covering `&#`. -/
def c5wT : Tokeniser :=
  { mkRunTok (str2cps "&#128;") with
    state := .numberedEntity
    ctx.match_entity := {
      str := ⟨0, 2⟩
      base := 0
      codepoint := 0
      had_data := false
      return_state := .data
      complete := false
      done_setup := true
      context := []
      prev_len := 1 }
    input := ⟨str2cps "&#128;", 2, true⟩ }

/-- The tokeniser state just after the `&` of `&ampx` has been consumed:
entering the named-entity state with the match span covering `&`. -/
def c4wT : Tokeniser :=
  { mkRunTok (str2cps "&ampx") with
    state := .namedEntity
    ctx.match_entity := {
      str := ⟨0, 1⟩
      base := 0
      codepoint := 0
      had_data := false
      return_state := .data
      complete := false
      done_setup := true
      context := []
      prev_len := 1 }
    input := ⟨str2cps "&ampx", 1, true⟩ }

end Hubbub

namespace Hubbub

/-! ## Claim theorems -/

/-- C10: for every token and tokeniser, if no token handler has been
registered (or the tokeniser or token pointer is NULL),
`hubbub_tokeniser_emit_token` returns immediately: no callback is invoked,
no duplicate-attribute elimination happens, and neither the tokeniser nor
the token is modified. -/
theorem C10_emit_token_guard_is_noop :
    ∀ (t? : Option Tokeniser) (k? : Option Token),
      (t? = none ∨ k? = none ∨ ∀ t, t? = some t → t.token_handler = none) →
      hubbub_tokeniser_emit_token t? k? = (t?, k?) := by
  intro t? k? h
  match t?, k? with
  | none, k? => rfl
  | some t, none => rfl
  | some t, some k =>
    rcases h with h | h | h
    · cases h
    · cases h
    · have hh := h t rfl
      simp [hubbub_tokeniser_emit_token, emitTokenCore, hh]

/-- Witness for C10: a handler-less tokeniser and a start tag with
duplicate attributes pass through `hubbub_tokeniser_emit_token`
completely unchanged. -/
theorem C10_emit_token_guard_is_noop_witness :
    hubbub_tokeniser_emit_token
        (some (hubbub_tokeniser_create ⟨[97, 97], 0, true⟩))
        (some (.startTag ⟨⟨0, 0⟩, 2, [⟨⟨0, 1⟩, ⟨0, 0⟩⟩, ⟨⟨1, 1⟩, ⟨0, 0⟩⟩]⟩)) =
      (some (hubbub_tokeniser_create ⟨[97, 97], 0, true⟩),
        some (.startTag ⟨⟨0, 0⟩, 2, [⟨⟨0, 1⟩, ⟨0, 0⟩⟩, ⟨⟨1, 1⟩, ⟨0, 0⟩⟩]⟩)) :=
  C10_emit_token_guard_is_noop _ _ (Or.inr (Or.inr (fun t h => by cases h; rfl)))

/-- C9: under the contract that a completed entity match
(`match_entity.complete`) always finds an actual codepoint under the
cursor (never OOD and never EOF), the `abort()` branches of the entity-data
and entity-in-attribute-value handlers are unreachable. -/
theorem C9_entity_completion_aborts_unreachable :
    ∀ t : Tokeniser,
      (t.ctx.match_entity.complete = true → ∃ c, t.input.peek = .cp c) →
      hubbub_tokeniser_handle_entity_data t ≠ .aborted ∧
      hubbub_tokeniser_handle_entity_in_attribute_value t ≠ .aborted := by
  intro t h
  have hce : hubbub_tokeniser_consume_entity t ≠ .aborted := by
    unfold hubbub_tokeniser_consume_entity
    dsimp only
    split
    · simp
    · split <;> simp
  by_cases hc : t.ctx.match_entity.complete = false
  · constructor
    · simpa [hubbub_tokeniser_handle_entity_data, hc] using hce
    · simpa [hubbub_tokeniser_handle_entity_in_attribute_value, hc] using hce
  · have hct : t.ctx.match_entity.complete = true := by
      revert hc; cases t.ctx.match_entity.complete <;> simp
    obtain ⟨c, hp⟩ := h hct
    constructor
    · simp [hubbub_tokeniser_handle_entity_data, hct, hp]
    · simp [hubbub_tokeniser_handle_entity_in_attribute_value, hct, hp]

/-- Witness for C9: a tokeniser with a completed entity match sitting on an
actual codepoint satisfies the contract, and neither handler aborts on
it. -/
theorem C9_entity_completion_aborts_unreachable_witness :
    hubbub_tokeniser_handle_entity_data
        { mkRunTok [38] with ctx.match_entity.complete := true } ≠ .aborted ∧
      hubbub_tokeniser_handle_entity_in_attribute_value
        { mkRunTok [38] with ctx.match_entity.complete := true } ≠ .aborted :=
  C9_entity_completion_aborts_unreachable _ (fun _ => ⟨38, by decide⟩)

/-- C8 counterexample: `hubbub_tokeniser_setopt` on a valid tokeniser with
an unrecognised option type returns `HUBBUB_OK` (the `switch` has no
`default` and falls through to success), not the bad-parameter code the
claim asserts. -/
theorem C8_setopt_unknown_option_returns_ok :
    hubbub_tokeniser_setopt (some (hubbub_tokeniser_create ⟨[], 0, true⟩)) 99
        (some { handler := some 7, pw := 3, content_model := .cdata }) =
      (.ok, some (hubbub_tokeniser_create ⟨[], 0, true⟩)) ∧
      HubbubError.ok ≠ HubbubError.badparm := by
  exact ⟨by decide, by decide⟩

/-- C8 amended: `hubbub_tokeniser_run(NULL)` and `hubbub_tokeniser_setopt`
with a NULL tokeniser or NULL params return `HUBBUB_BADPARM` without any
state mutation; `hubbub_tokeniser_setopt` with an unrecognised option type
also performs no mutation but returns `HUBBUB_OK`, not the bad-parameter
code. -/
theorem C8_null_entry_points_badparm_no_mutation :
    (∀ dict fuel, hubbub_tokeniser_run dict fuel none = (.badparm, none)) ∧
    (∀ ty p?, hubbub_tokeniser_setopt none ty p? = (.badparm, none)) ∧
    (∀ t ty, hubbub_tokeniser_setopt (some t) ty none = (.badparm, some t)) ∧
    (∀ t p ty, ty ≠ HUBBUB_TOKENISER_TOKEN_HANDLER →
      ty ≠ HUBBUB_TOKENISER_BUFFER_HANDLER →
      ty ≠ HUBBUB_TOKENISER_ERROR_HANDLER →
      ty ≠ HUBBUB_TOKENISER_CONTENT_MODEL →
      hubbub_tokeniser_setopt (some t) ty (some p) = (.ok, some t)) := by
  refine ⟨fun dict fuel => rfl, fun ty p? => ?_, fun t ty => rfl, fun t p ty h1 h2 h3 h4 => ?_⟩
  · cases p? <;> rfl
  · simp [hubbub_tokeniser_setopt, h1, h2, h3, h4]

/-- Witness for C8: the amended statement applied at an unrecognised
option type `99` on a concrete tokeniser. -/
theorem C8_null_entry_points_badparm_no_mutation_witness :
    hubbub_tokeniser_setopt (some (mkRunTok [])) 99
        (some { handler := none, pw := 0, content_model := .pcdata }) =
      (.ok, some (mkRunTok [])) :=
  C8_null_entry_points_badparm_no_mutation.2.2.2 _ _ 99
    (by decide) (by decide) (by decide) (by decide)

/-- The failing configuration for C2: open `html` (HTML namespace) with an
`svg` element (SVG namespace) on top, in foreign content over `IN_BODY`. -/
def c2tb : Treebuilder where
  mode := .inForeignContent
  second_mode := .inBody
  element_stack := [⟨.html, .HTML, 0⟩, ⟨.svg, .SVG, 1⟩]
  unrefs := []
  effects := []
  next_node := 2

/-- C2: on a `table` start tag in foreign content with a non-HTML current
node, `handle_in_foreign_content` pops the non-HTML elements (unref'ing
node 1) and switches the mode to the secondary mode, but returns `false`
as its reprocess flag — so the dispatcher drops the `table` token instead
of reprocessing it in the secondary mode as the specification requires. -/
theorem C2_foreign_breakout_drops_token :
    ∀ secondary,
      handle_in_foreign_content secondary c2tb (.startTag (str2cps "table") false) =
        ({ c2tb with
            element_stack := [⟨.html, .HTML, 0⟩]
            unrefs := [1]
            mode := .inBody }, false) := by
  intro secondary
  rfl

/-- The codepoints of the literal `DOCTYPE`; `match_doctype.count = k`
means the first `k` letters have been matched (the `D` by the
markup-declaration-open state) and letter index `k` is expected next. -/
def doctypeLetters : List Nat := [68, 79, 67, 84, 89, 80, 69]

theorem pushBackSeq_spec (l : List Nat) : ∀ s : Inputstream,
    s.cursor ≤ s.buffer.length →
    pushBackSeq s l =
      ⟨s.buffer.take s.cursor ++ l.reverse ++ s.buffer.drop s.cursor, s.cursor, s.hadEOF⟩ := by
  induction l with
  | nil =>
    intro s h
    cases s with
    | mk buffer cursor hadEOF => simp [pushBackSeq]
  | cons x xs ih =>
    intro s h
    have hstep : pushBackSeq s (x :: xs) = pushBackSeq (s.pushBack x) xs := rfl
    have hc : (s.pushBack x).cursor = s.cursor := rfl
    have hlen : s.cursor ≤ (s.pushBack x).buffer.length := by
      simp [Inputstream.pushBack]
      omega
    rw [hstep, ih (s.pushBack x) (by rw [hc]; exact hlen)]
    have htk : (s.buffer.take s.cursor).length = s.cursor := by
      simp [List.length_take]
      omega
    rw [show (s.pushBack x).buffer = s.buffer.take s.cursor ++ x :: s.buffer.drop s.cursor
        from rfl,
      show (s.pushBack x).cursor = s.cursor from rfl,
      List.take_left' htk, List.drop_left' htk]
    simp [Inputstream.pushBack, List.reverse_cons, List.append_assoc]

/-- C7: while matching `DOCTYPE`, a matching letter is uppercased in place
in the buffer and the count advances; on the first mismatching character
after `k` letters have matched, exactly those `k` letters are pushed back
onto the stream in reverse order (so the buffer again reads `DOCTYP…` from
the cursor) and the state becomes bogus-comment; consequently
`<!DOCTYPR html>` produces the single token `Comment("DOCTYPR html")`. -/
theorem C7_match_doctype_pushback :
    (∀ t : Tokeniser, t.state = .matchDoctype →
      t.input.cursor ≤ t.input.buffer.length →
      1 ≤ t.ctx.match_doctype_count → t.ctx.match_doctype_count ≤ 6 →
      t.input.peek ≠ .ood →
      (¬ peekMasked t.input.peek
          (doctypeLetters.getD t.ctx.match_doctype_count 0) = true →
        hubbub_tokeniser_handle_match_doctype t = .next { t with
          input := ⟨t.input.buffer.take t.input.cursor ++
              doctypeLetters.take t.ctx.match_doctype_count ++
              t.input.buffer.drop t.input.cursor,
            t.input.cursor, t.input.hadEOF⟩
          ctx.current_comment := ⟨0, 0⟩
          state := .bogusComment } true) ∧
      (peekMasked t.input.peek
          (doctypeLetters.getD t.ctx.match_doctype_count 0) = true →
        (t.ctx.match_doctype_count ≤ 5 →
          hubbub_tokeniser_handle_match_doctype t = .next { t with
            input := t.input.uppercase.advance
            ctx.match_doctype_count := t.ctx.match_doctype_count + 1 } true) ∧
        (t.ctx.match_doctype_count = 6 →
          hubbub_tokeniser_handle_match_doctype t = .next { t with
            input := t.input.uppercase.advance
            state := .doctype } true))) ∧
    runOutput egDict 100 (str2cps "<!DOCTYPR html>") =
      some [.comment (str2cps "DOCTYPR html"), .eofTok] := by
  constructor
  · intro t hst hcur hk1 hk6 hood
    have hcv : t.ctx.match_doctype_count = 1 ∨ t.ctx.match_doctype_count = 2 ∨
        t.ctx.match_doctype_count = 3 ∨ t.ctx.match_doctype_count = 4 ∨
        t.ctx.match_doctype_count = 5 ∨ t.ctx.match_doctype_count = 6 := by omega
    have hpb := pushBackSeq_spec (doctypePushList t.ctx.match_doctype_count) t.input hcur
    rcases hcv with h | h | h | h | h | h <;>
      rw [h] at hpb <;>
      simp only [doctypePushList, List.reverse_cons, List.reverse_nil, List.nil_append,
        List.cons_append, List.append_assoc] at hpb <;>
      simp only [h, doctypeLetters, List.getD_cons_zero, List.getD_cons_succ] <;>
      refine ⟨fun hmask => ?_, fun hmask => ⟨fun h5 => ?_, fun h6 => ?_⟩⟩ <;>
      first
        | exact absurd h6 (by decide)
        | exact absurd h5 (by decide)
        | (simp only [hubbub_tokeniser_handle_match_doctype]
           simp [h, hood, hmask, hpb, doctypePushList, doctypeLetters])
  · decide

/-- Witness for C7: in the match-doctype state after one matched letter,
a mismatching `X` pushes the `D` back and enters bogus-comment. -/
theorem C7_match_doctype_pushback_witness :
    hubbub_tokeniser_handle_match_doctype
        { mkRunTok [88] with state := .matchDoctype, ctx.match_doctype_count := 1 } =
      .next { { mkRunTok [88] with state := .matchDoctype, ctx.match_doctype_count := 1 } with
        input := ⟨[68, 88], 0, true⟩
        ctx.current_comment := ⟨0, 0⟩
        state := .bogusComment } true :=
  (C7_match_doctype_pushback.1 _ rfl (by decide) (by decide) (by decide) (by decide)).1
    (by decide)

/-- How an emitted doctype token lands in the output: nothing is appended
without a registered handler, else exactly the resolved doctype. -/
theorem doctype_emit_mem (t : Tokeniser) (d : HubbubDoctype) (name : List Nat)
    (correct : Bool)
    (hmem : OutToken.doctype name correct ∈
      (emitTok t (.doctype d)).output.drop t.output.length) :
    name = slice t.input.buffer d.name.data_off d.name.len ∧ correct = d.correct := by
  cases h : t.token_handler with
  | none => simp [emitTok, emitTokenCore, h, List.drop_length] at hmem
  | some v =>
    simp only [emitTok, emitTokenCore, h, resolveToken] at hmem
    rw [List.drop_left] at hmem
    simpa using hmem

/-- The `compare_range_ascii` test against `HTML`, under an in-bounds name
span, says exactly that the resolved name case-insensitively reads
`html`. -/
theorem compareRangeAscii_html_iff (s : Inputstream) (off len : Nat)
    (hb : off + len ≤ s.buffer.length) :
    s.compareRangeAscii off len hubbubHTML = true ↔
      (slice s.buffer off len).map cpToLower = [104, 116, 109, 108] := by
  have hlit : hubbubHTML.map cpToLower = [104, 116, 109, 108] := by decide
  unfold Inputstream.compareRangeAscii
  rw [decide_eq_true_eq]
  constructor
  · rintro ⟨-, h2⟩
    rw [h2, hlit]
  · intro h2
    have hl : ((slice s.buffer off len).map cpToLower).length = 4 := by rw [h2]; rfl
    rw [List.length_map] at hl
    have hsl : (slice s.buffer off len).length = min len (s.buffer.length - off) := by
      simp [slice, List.length_take, List.length_drop]
    rw [hsl] at hl
    have hlen4 : len = 4 := by omega
    exact ⟨by rw [hlen4]; rfl, by rw [hlit]; exact h2⟩

/-- C1 counterexample: on `<!DOCTYPE html` ending at EOF, the tokeniser
emits a doctype token whose name span case-insensitively equals `HTML`
yet whose `correct` flag is false — the EOF emission paths copy the
stored flag instead of comparing the name. -/
theorem C1_doctype_eof_not_correct :
    runOutput egDict 100 (str2cps "<!DOCTYPE html") =
      some [.doctype [72, 84, 77, 76] false, .eofTok] ∧
    [72, 84, 77, 76].map cpToLower = str2cps "html" :=
  ⟨by decide, by decide⟩

/-- C1 amended: assuming the standing invariant that the stored
`current_doctype.correct` is false (it is zero-initialised and every write
to it stores false), a doctype token emitted by any of the doctype states
has `correct = true` exactly when it is emitted on `>` from the
doctype-name or after-doctype-name state with a name span that
case-insensitively equals `HTML`; tokens emitted at EOF, from
before-doctype-name or from bogus-doctype always carry `correct = false`. -/
theorem C1_doctype_correct_characterisation :
    ∀ (dict : List (List Nat × Nat)) (t t2 : Tokeniser) (cont : Bool),
      (t.state = .doctype ∨ t.state = .beforeDoctypeName ∨ t.state = .doctypeName ∨
        t.state = .afterDoctypeName ∨ t.state = .bogusDoctype) →
      t.ctx.current_doctype.correct = false →
      t.ctx.current_doctype.name.data_off + t.ctx.current_doctype.name.len ≤
        t.input.buffer.length →
      hubbub_tokeniser_step dict t = .next t2 cont →
      ∀ (name : List Nat) (correct : Bool),
        OutToken.doctype name correct ∈ t2.output.drop t.output.length →
        (correct = true ↔
          ((t.state = .doctypeName ∨ t.state = .afterDoctypeName) ∧
            t.input.peek = .cp 62 ∧ name.map cpToLower = [104, 116, 109, 108])) := by
  intro dict t t2 cont hst hcor hb hstep name correct hmem
  rcases hst with h | h | h | h | h <;>
    simp only [hubbub_tokeniser_step, h] at hstep
  · -- DOCTYPE state: never emits
    unfold hubbub_tokeniser_handle_doctype at hstep
    dsimp only at hstep
    split_ifs at hstep <;>
      (injection hstep with he1 he2; subst he1; simp [List.drop_length] at hmem)
  · -- BEFORE_DOCTYPE_NAME
    unfold hubbub_tokeniser_handle_before_doctype_name at hstep
    rcases hp : t.input.peek with ch | _ | _ <;> rw [hp] at hstep <;> dsimp only at hstep
    · split_ifs at hstep with h1 h2 h3 <;> (injection hstep with he1 he2; subst he1)
      · simp [List.drop_length] at hmem
      · simp [List.drop_length] at hmem
      · obtain ⟨hn, hc⟩ := doctype_emit_mem t _ name correct hmem
        rw [hc, hcor]
        simp [h]
      · simp [List.drop_length] at hmem
    · -- EOF: emits the stored doctype, whose flag is false
      injection hstep with he1 he2
      subst he1
      obtain ⟨hn, hc⟩ := doctype_emit_mem t _ name correct hmem
      rw [hc, hcor]
      simp [h]
    · injection hstep with he1 he2
      subst he1
      simp [List.drop_length] at hmem
  · -- DOCTYPE_NAME
    unfold hubbub_tokeniser_handle_doctype_name at hstep
    rcases hp : t.input.peek with ch | _ | _ <;> rw [hp] at hstep <;> dsimp only at hstep
    · split_ifs at hstep with h1 h2 h3 <;> (injection hstep with he1 he2; subst he1)
      · simp [List.drop_length] at hmem
      · -- the `>` branch: correct is the HTML comparison
        obtain ⟨hn, hc⟩ := doctype_emit_mem t _ name correct hmem
        rw [hc]
        simp only [doctypeWithCorrect] at hn ⊢
        rw [hn, h, h2]
        simp [compareRangeAscii_html_iff t.input _ _ hb]
      · simp [List.drop_length] at hmem
      · simp [List.drop_length] at hmem
    · injection hstep with he1 he2
      subst he1
      obtain ⟨hn, hc⟩ := doctype_emit_mem t _ name correct hmem
      rw [hc, hcor]
      simp [hp]
    · injection hstep with he1 he2
      subst he1
      simp [List.drop_length] at hmem
  · -- AFTER_DOCTYPE_NAME
    unfold hubbub_tokeniser_handle_after_doctype_name at hstep
    rcases hp : t.input.peek with ch | _ | _ <;> rw [hp] at hstep <;> dsimp only at hstep
    · split_ifs at hstep with h1 h2 <;> (injection hstep with he1 he2; subst he1)
      · simp [List.drop_length] at hmem
      · obtain ⟨hn, hc⟩ := doctype_emit_mem t _ name correct hmem
        rw [hc]
        simp only [doctypeWithCorrect] at hn ⊢
        rw [hn, h, h2]
        simp [compareRangeAscii_html_iff t.input _ _ hb]
      · simp [List.drop_length] at hmem
    · injection hstep with he1 he2
      subst he1
      obtain ⟨hn, hc⟩ := doctype_emit_mem t _ name correct hmem
      rw [hc, hcor]
      simp [hp]
    · injection hstep with he1 he2
      subst he1
      simp [List.drop_length] at hmem
  · -- BOGUS_DOCTYPE
    unfold hubbub_tokeniser_handle_bogus_doctype at hstep
    rcases hp : t.input.peek with ch | _ | _ <;> rw [hp] at hstep <;> dsimp only at hstep
    · split_ifs at hstep with h1 <;> (injection hstep with he1 he2; subst he1)
      · obtain ⟨hn, hc⟩ := doctype_emit_mem t _ name correct hmem
        rw [hc, hcor]
        simp [h]
      · simp [List.drop_length] at hmem
    · injection hstep with he1 he2
      subst he1
      obtain ⟨hn, hc⟩ := doctype_emit_mem t _ name correct hmem
      rw [hc, hcor]
      simp [h]
    · injection hstep with he1 he2
      subst he1
      simp [List.drop_length] at hmem

/-- The doctype-name state about to see `>` with the uppercased name
`HTML` in the buffer. -/
def c1wTok : Tokeniser :=
  { mkRunTok [72, 84, 77, 76, 62] with
    state := .doctypeName
    input := ⟨[72, 84, 77, 76, 62], 4, true⟩
    ctx.current_doctype := { name := ⟨0, 4⟩, correct := false } }

/-- The tokeniser after one step of `c1wTok`. -/
def c1wT2 : Tokeniser :=
  match hubbub_tokeniser_step [] c1wTok with
  | .next t _ => t
  | .aborted => c1wTok

/-- Witness for C1: the characterisation applied to a concrete `>`
emission of a doctype named `HTML`, whose token indeed has
`correct = true`. -/
theorem C1_doctype_correct_characterisation_witness :
    (true = true ↔
      ((c1wTok.state = .doctypeName ∨ c1wTok.state = .afterDoctypeName) ∧
        c1wTok.input.peek = .cp 62 ∧
        ([72, 84, 77, 76] : List Nat).map cpToLower = [104, 116, 109, 108])) :=
  C1_doctype_correct_characterisation [] c1wTok c1wT2 true
    (Or.inr (Or.inr (Or.inl rfl))) (by decide) (by decide) (by decide)
    [72, 84, 77, 76] true (by decide)

/-- C6: duplicate-attribute elimination mishandles more than four equal
names: `<p a a a a a>` is emitted as a start tag that still carries two
`a` attributes, while the claimed behaviour (pairwise-distinct names,
first occurrence kept) does hold for the two-attribute example
`<p a=1 a=2>`. -/
theorem C6_five_duplicate_attributes_survive :
    runOutput [] 100 (str2cps "<p a a a a a>") =
      some [.startTag (str2cps "p") [(str2cps "a", []), (str2cps "a", [])], .eofTok] ∧
    runOutput [] 100 (str2cps "<p a=1 a=2>") =
      some [.startTag (str2cps "p") [(str2cps "a", str2cps "1")], .eofTok] := by
  exact ⟨by decide, by decide⟩

/-- Emission never touches anything but the output log. -/
theorem emitTok_frame (t : Tokeniser) (k : Token) :
    (emitTok t k).state = t.state ∧ (emitTok t k).content_model = t.content_model ∧
    (emitTok t k).input = t.input ∧ (emitTok t k).ctx = t.ctx ∧
    (emitTok t k).token_handler = t.token_handler := by
  cases h : t.token_handler <;> simp [emitTok, emitTokenCore, h]

/-- Emission leaves the input stream unchanged. -/
theorem emitTok_input (t : Tokeniser) (k : Token) : (emitTok t k).input = t.input := by
  cases h : t.token_handler <;> simp [emitTok, emitTokenCore, h]

/-- Emission leaves the content model unchanged. -/
theorem emitTok_content_model (t : Tokeniser) (k : Token) :
    (emitTok t k).content_model = t.content_model := by
  cases h : t.token_handler <;> simp [emitTok, emitTokenCore, h]

/-- The output of emitting a character token. -/
theorem emitTok_character_output (t : Tokeniser) (s : HubbubString) :
    (emitTok t (.character s)).output = t.output ++ (match t.token_handler with
      | none => []
      | some _ => [.character (slice t.input.buffer s.data_off s.len)]) := by
  cases h : t.token_handler <;> simp [emitTok, emitTokenCore, h, resolveToken]

/-- The candidate-span accumulation always grows the length by one. -/
theorem extendSpan_len (s : HubbubString) (p : Nat) : (extendSpan s p).len = s.len + 1 := by
  unfold extendSpan
  split <;> simp_all

/-- Invariant of the close-tag-match loop.  On a fall-through exit nothing
but the candidate span and the cursor has changed, and an exit on an
actual codepoint means the candidate has exactly the length of the last
open tag's name and compares equal to it case-insensitively; an early
return is the mismatch path: pending characters emitted, state `DATA`,
content model untouched. -/
theorem ctmLoop_spec : ∀ (rem : List Nat) (t : Tokeniser),
    t.input.buffer.drop t.input.cursor = rem →
    t.ctx.close_tag_match_tag.len ≤ t.input.cursor →
    (t.ctx.close_tag_match_tag.len < t.ctx.current_tag.name.len ∨
      t.ctx.close_tag_match_tag.len = 0) →
    (∀ t2 c, ctmLoop t rem = .fall t2 c →
      t2.input.buffer = t.input.buffer ∧
      t2.input.hadEOF = t.input.hadEOF ∧
      t2.output = t.output ∧
      t2.content_model = t.content_model ∧
      t2.state = t.state ∧
      t2.ctx.current_chars = t.ctx.current_chars ∧
      t2.ctx.current_tag = t.ctx.current_tag ∧
      t2.token_handler = t.token_handler ∧
      t2.ctx.close_tag_match_tag.len ≤ t2.input.cursor ∧
      (c ≠ .eof → c ≠ .ood →
        t2.ctx.close_tag_match_tag.len = t.ctx.current_tag.name.len ∧
        t2.input.compareRangeCI t.ctx.current_tag.name.data_off
          t2.ctx.close_tag_match_tag.data_off t.ctx.current_tag.name.len = true)) ∧
    (∀ r, ctmLoop t rem = .ret r →
      ∃ t3, r = .next t3 true ∧
        t3.input.buffer = t.input.buffer ∧
        t3.content_model = t.content_model ∧
        t3.state = .data ∧
        t3.output = t.output ++ (match t.token_handler with
          | none => []
          | some _ => [.character (slice t.input.buffer t.ctx.current_chars.data_off
              t.ctx.current_chars.len)])) := by
  intro rem
  induction rem with
  | nil =>
    intro t hsync hlen hok
    constructor
    · intro t2 c hfall
      unfold ctmLoop at hfall
      split_ifs at hfall with hg
      · injection hfall with he1 he2
        subst he1
        have hcur : t.input.buffer.length ≤ t.input.cursor :=
          List.drop_eq_nil_iff.mp hsync
        have hpeek : t.input.peek = .eof ∨ t.input.peek = .ood := by
          unfold Inputstream.peek
          rw [if_neg (by omega)]
          cases t.input.hadEOF <;> simp
        refine ⟨rfl, rfl, rfl, rfl, rfl, rfl, rfl, rfl, hlen, ?_⟩
        intro hne hno
        subst he2
        rcases hpeek with hp | hp <;> rw [hp] at hne hno
        · exact absurd rfl hne
        · exact absurd rfl hno
      · injection hfall with he1 he2
        subst he1
        have hname0 : t.ctx.current_tag.name.len = 0 := by omega
        refine ⟨rfl, rfl, rfl, rfl, rfl, rfl, rfl, rfl, hlen, ?_⟩
        intro _ _
        refine ⟨by omega, ?_⟩
        rw [hname0]
        rfl
    · intro r hret
      unfold ctmLoop at hret
      split_ifs at hret <;> cases hret
  | cons c rs ih =>
    intro t hsync hlen hok
    have hcur : t.input.cursor < t.input.buffer.length := by
      by_contra hc
      rw [List.drop_eq_nil_iff.mpr (by omega)] at hsync
      cases hsync
    have hadv : t.input.advance = ⟨t.input.buffer, t.input.cursor + 1, t.input.hadEOF⟩ := by
      unfold Inputstream.advance
      rw [if_pos hcur]
    have htgl := extendSpan_len t.ctx.close_tag_match_tag t.input.cursor
    have hrewind : (t.input.advance).rewind
        (extendSpan t.ctx.close_tag_match_tag t.input.cursor).len =
        some ⟨t.input.buffer, t.input.cursor - t.ctx.close_tag_match_tag.len,
          t.input.hadEOF⟩ := by
      rw [hadv]
      unfold Inputstream.rewind
      dsimp only
      rw [htgl, if_pos (by omega)]
      simp only [Option.some.injEq, Inputstream.mk.injEq, true_and, and_true]
      omega
    have hsync2 : t.input.buffer.drop (t.input.cursor + 1) = rs := by
      have h1 := List.drop_drop 1 t.input.cursor t.input.buffer
      rw [hsync] at h1
      simpa using h1.symm
    constructor
    · intro t2 cc hfall
      unfold ctmLoop at hfall
      dsimp only at hfall
      split_ifs at hfall with hg hmis hmat
      · -- mismatch branch: an early return, never a fall
        rw [hrewind] at hfall
        cases hfall
      · -- matched: falls through with the accumulated candidate
        injection hfall with he1 he2
        subst he1
        refine ⟨by rw [hadv], by rw [hadv], rfl, rfl, rfl, rfl, rfl, rfl, ?_, ?_⟩
        · show (extendSpan t.ctx.close_tag_match_tag t.input.cursor).len ≤
            (t.input.advance).cursor
          rw [htgl, hadv]
          show t.ctx.close_tag_match_tag.len + 1 ≤ t.input.cursor + 1
          omega
        · intro _ _
          exact ⟨hmat.1, by simpa using hmat.2⟩
      · -- continue: induction hypothesis on the advanced tokeniser
        have hok2 : (extendSpan t.ctx.close_tag_match_tag t.input.cursor).len <
            t.ctx.current_tag.name.len := by
          by_cases hB : (extendSpan t.ctx.close_tag_match_tag t.input.cursor).len =
              t.ctx.current_tag.name.len
          · exfalso
            by_cases hC : (Inputstream.compareRangeCI (t.input.advance)
                t.ctx.current_tag.name.data_off
                (extendSpan t.ctx.close_tag_match_tag t.input.cursor).data_off
                t.ctx.current_tag.name.len) = true
            · exact hmat ⟨hB, hC⟩
            · exact hmis (Or.inr ⟨hB, by simpa using hC⟩)
          · have hA : ¬(t.ctx.current_tag.name.len <
                (extendSpan t.ctx.close_tag_match_tag t.input.cursor).len) :=
              fun hlt => hmis (Or.inl hlt)
            omega
        obtain ⟨hfallIH, -⟩ := ih
          { t with
            ctx.close_tag_match_tag := extendSpan t.ctx.close_tag_match_tag t.input.cursor
            input := t.input.advance }
          (by
            show (t.input.advance).buffer.drop (t.input.advance).cursor = rs
            rw [hadv]
            exact hsync2)
          (by
            show (extendSpan t.ctx.close_tag_match_tag t.input.cursor).len ≤
              (t.input.advance).cursor
            rw [htgl, hadv]
            show t.ctx.close_tag_match_tag.len + 1 ≤ t.input.cursor + 1
            omega)
          (Or.inl hok2)
        obtain ⟨k1, k2, k3, k4, k5, k6, k7, k8, k9, k10⟩ := hfallIH t2 cc hfall
        rw [hadv] at k1 k2
        exact ⟨k1, k2, k3, k4, k5, k6, k7, k8, k9, fun hne hno => k10 hne hno⟩
      · -- guard false at entry: name length is zero
        injection hfall with he1 he2
        subst he1
        have hname0 : t.ctx.current_tag.name.len = 0 := by omega
        refine ⟨rfl, rfl, rfl, rfl, rfl, rfl, rfl, rfl, hlen, ?_⟩
        intro _ _
        refine ⟨by omega, ?_⟩
        rw [hname0]
        rfl
    · intro r hret
      unfold ctmLoop at hret
      dsimp only at hret
      split_ifs at hret with hg hmis hmat
      all_goals try rw [hrewind] at hret
      all_goals
        first
          | -- the mismatch branch: rewound, characters emitted, back to DATA
            (injection hret with hre
             subst hre
             exact ⟨_, rfl, by simp only [emitTok_input],
               by simp only [emitTok_content_model], rfl,
               by rw [emitTok_character_output]⟩)
          | -- the matched and guard-false branches fall through, never return
            cases hret
          | -- continue: induction hypothesis on the advanced tokeniser
            (have hok2 : (extendSpan t.ctx.close_tag_match_tag t.input.cursor).len <
                t.ctx.current_tag.name.len := by
              by_cases hB : (extendSpan t.ctx.close_tag_match_tag t.input.cursor).len =
                  t.ctx.current_tag.name.len
              · exfalso
                by_cases hC : (Inputstream.compareRangeCI (t.input.advance)
                    t.ctx.current_tag.name.data_off
                    (extendSpan t.ctx.close_tag_match_tag t.input.cursor).data_off
                    t.ctx.current_tag.name.len) = true
                · exact hmat ⟨hB, hC⟩
                · exact hmis (Or.inr ⟨hB, by simpa using hC⟩)
              · have hA : ¬(t.ctx.current_tag.name.len <
                    (extendSpan t.ctx.close_tag_match_tag t.input.cursor).len) :=
                  fun hlt => hmis (Or.inl hlt)
                omega
             obtain ⟨-, hretIH⟩ := ih
              { t with
                ctx.close_tag_match_tag := extendSpan t.ctx.close_tag_match_tag t.input.cursor
                input := t.input.advance }
              (by
                show (t.input.advance).buffer.drop (t.input.advance).cursor = rs
                rw [hadv]
                exact hsync2)
              (by
                show (extendSpan t.ctx.close_tag_match_tag t.input.cursor).len ≤
                  (t.input.advance).cursor
                rw [htgl, hadv]
                show t.ctx.close_tag_match_tag.len + 1 ≤ t.input.cursor + 1
                omega)
              (Or.inl hok2)
             obtain ⟨t3, k1, k2, k3, k4, k5⟩ := hretIH r hret
             rw [hadv] at k2 k5
             exact ⟨t3, k1, k2, k3, k4, k5⟩)

/-- C3: close-tag matching in CDATA/RCDATA.  General part: whenever the
close-tag-match handler hands back control, either it ran out of data and
changed nothing, or the candidate end-tag name matched the last-opened tag
name case-insensitively with a valid terminator following it and the
content model was reset to PCDATA, or the match failed and the pending
characters were emitted as character data with the content model left
unchanged.  Concrete part: with content model CDATA after an open
`<script>`, the input `</scriptx>` is re-emitted as the character data
`</scriptx>` (in two chunks whose concatenation is `</scriptx>`) and the
content model stays CDATA. -/
theorem C3_close_tag_match_cdata :
    (∀ (t t2 : Tokeniser) (cont : Bool),
      t.ctx.close_tag_match_tag.len ≤ t.input.cursor →
      (t.ctx.close_tag_match_tag.len < t.ctx.current_tag.name.len ∨
        t.ctx.close_tag_match_tag.len = 0) →
      hubbub_tokeniser_handle_close_tag_match t = .next t2 cont →
      t2.input.buffer = t.input.buffer ∧
      ((cont = false ∧ t2.output = t.output ∧ t2.content_model = t.content_model ∧
          t2.state = t.state) ∨
       (t2.content_model = .pcdata ∧ t2.state = .closeTagOpen ∧ t2.output = t.output ∧
          t2.ctx.close_tag_match_tag.len = t.ctx.current_tag.name.len ∧
          t2.input.compareRangeCI t.ctx.current_tag.name.data_off
            t2.ctx.close_tag_match_tag.data_off t.ctx.current_tag.name.len = true ∧
          isCloseTagTerminator (t2.input.peekAt
            (t2.input.cursor + t.ctx.current_tag.name.len)) = true) ∨
       (t2.content_model = t.content_model ∧ t2.state = .data ∧
          t2.output = t.output ++ (match t.token_handler with
            | none => []
            | some _ => [.character (slice t.input.buffer
                t.ctx.current_chars.data_off t.ctx.current_chars.len)])))) ∧
    ((c3phase2.map fun t => (t.output, t.content_model)) =
      some ([.startTag (str2cps "script") [], .character (str2cps "</"),
        .character (str2cps "scriptx>"), .eofTok], .cdata) ∧
     str2cps "</" ++ str2cps "scriptx>" = str2cps "</scriptx>") := by
  constructor
  · intro t t2 cont hlen hok hstep
    obtain ⟨hfall, hret⟩ := ctmLoop_spec (t.input.buffer.drop t.input.cursor) t rfl hlen hok
    unfold hubbub_tokeniser_handle_close_tag_match at hstep
    rcases hcl : ctmLoop t (t.input.buffer.drop t.input.cursor) with r | ⟨tm, c⟩
    · rw [hcl] at hstep
      dsimp only at hstep
      obtain ⟨t3, e1, e2, e3, e4, e5⟩ := hret r hcl
      rw [e1] at hstep
      injection hstep with h1 h2
      subst h1
      exact ⟨e2, Or.inr (Or.inr ⟨e3, e4, e5⟩)⟩
    · rw [hcl] at hstep
      dsimp only at hstep
      obtain ⟨k1, k2, k3, k4, k5, k6, k7, k8, k9, k10⟩ := hfall tm c hcl
      have hrw : tm.input.rewind tm.ctx.close_tag_match_tag.len =
          some ⟨tm.input.buffer, tm.input.cursor - tm.ctx.close_tag_match_tag.len,
            tm.input.hadEOF⟩ := by
        unfold Inputstream.rewind
        rw [if_pos k9]
      by_cases hood : c = .ood
      · rw [if_pos hood] at hstep
        injection hstep with h1 h2
        subst h1
        subst h2
        exact ⟨k1, Or.inl ⟨rfl, k3, k4, k5⟩⟩
      · rw [if_neg hood] at hstep
        by_cases heof : c = .eof
        · rw [if_pos heof, hrw] at hstep
          dsimp only at hstep
          injection hstep with h1 h2
          subst h1
          refine ⟨?_, Or.inr (Or.inr ⟨?_, rfl, ?_⟩)⟩
          · rw [emitTok_input]
            exact k1
          · rw [emitTok_content_model]
            exact k4
          · rw [emitTok_character_output]
            dsimp only
            rw [k3, k8, k6, k1]
        · rw [if_neg heof, hrw] at hstep
          dsimp only at hstep
          by_cases hood2 : tm.input.peek = .ood
          · rw [if_pos hood2] at hstep
            injection hstep with h1 h2
            subst h1
            subst h2
            exact ⟨k1, Or.inl ⟨rfl, k3, k4, k5⟩⟩
          · rw [if_neg hood2] at hstep
            by_cases hterm : isCloseTagTerminator tm.input.peek = true
            · rw [if_pos hterm] at hstep
              injection hstep with h1 h2
              subst h1
              have h10 := k10 heof hood
              refine ⟨k1, Or.inr (Or.inl ⟨rfl, rfl, k3, h10.1, ?_, ?_⟩)⟩
              · have hcmp := h10.2
                unfold Inputstream.compareRangeCI at hcmp ⊢
                exact hcmp
              · show isCloseTagTerminator (Inputstream.peekAt
                  ⟨tm.input.buffer, tm.input.cursor - tm.ctx.close_tag_match_tag.len,
                    tm.input.hadEOF⟩
                  (tm.input.cursor - tm.ctx.close_tag_match_tag.len +
                    t.ctx.current_tag.name.len)) = true
                have hc : tm.input.cursor - tm.ctx.close_tag_match_tag.len +
                    t.ctx.current_tag.name.len = tm.input.cursor := by
                  have := h10.1
                  omega
                rw [hc]
                have hpk : Inputstream.peekAt
                    ⟨tm.input.buffer, tm.input.cursor - tm.ctx.close_tag_match_tag.len,
                      tm.input.hadEOF⟩ tm.input.cursor = tm.input.peek := by
                  unfold Inputstream.peekAt Inputstream.peek
                  rfl
                rw [hpk]
                exact hterm
            · rw [if_neg hterm] at hstep
              injection hstep with h1 h2
              subst h1
              refine ⟨?_, Or.inr (Or.inr ⟨?_, rfl, ?_⟩)⟩
              · rw [emitTok_input]
                exact k1
              · rw [emitTok_content_model]
                exact k4
              · rw [emitTok_character_output]
                dsimp only
                rw [k3, k8, k6, k1]
  · exact ⟨by decide, by decide⟩

/-- Witness for C3: the general clause applied to the concrete tokeniser
`c3wT`, whose handler step is a successful close-tag match. -/
theorem C3_close_tag_match_cdata_witness :
    c3wT2.input.buffer = c3wT.input.buffer :=
  (C3_close_tag_match_cdata.1 c3wT c3wT2 true (by decide) (by decide) (by rfl)).1

/-- The 32-bit accumulator of the numbered-entity machine computes the
mathematical base-`b` value of the digit string reduced modulo 2^32. -/
theorem u32_foldl (b : Nat) : ∀ (ds : List Nat) (A : Nat),
    ds.foldl (fun a d => u32 (a * b + digitVal d)) (A % 4294967296) =
      (ds.foldl (fun a d => a * b + digitVal d) A) % 4294967296 := by
  intro ds
  induction ds with
  | nil => intro A; rfl
  | cons d ds ih =>
    intro A
    rw [List.foldl_cons, List.foldl_cons]
    have h : u32 (A % 4294967296 * b + digitVal d) =
        (A * b + digitVal d) % 4294967296 := by
      unfold u32
      rw [Nat.add_mod, Nat.mod_mul_mod, ← Nat.add_mod]
    rw [h]
    exact ih (A * b + digitVal d)

/-- The digit loop consumes exactly the leading digit run, accumulating
the codepoint through the `uint32_t` wrap and extending the match span. -/
theorem numberedLoop_spec : ∀ (rem : List Nat) (t : Tokeniser),
    t.input.buffer.drop t.input.cursor = rem →
    numberedLoop t rem =
      ({ t with
          ctx.match_entity.had_data := t.ctx.match_entity.had_data ||
            !(rem.takeWhile (isDigitB t.ctx.match_entity.base)).isEmpty
          ctx.match_entity.codepoint :=
            (rem.takeWhile (isDigitB t.ctx.match_entity.base)).foldl
              (fun a d => u32 (a * t.ctx.match_entity.base + digitVal d))
              t.ctx.match_entity.codepoint
          ctx.match_entity.str.len := t.ctx.match_entity.str.len +
            (rem.takeWhile (isDigitB t.ctx.match_entity.base)).length
          input := ⟨t.input.buffer,
            t.input.cursor + (rem.takeWhile (isDigitB t.ctx.match_entity.base)).length,
            t.input.hadEOF⟩ },
        match rem.drop (rem.takeWhile (isDigitB t.ctx.match_entity.base)).length with
        | [] => Inputstream.peek ⟨t.input.buffer,
            t.input.cursor + (rem.takeWhile (isDigitB t.ctx.match_entity.base)).length,
            t.input.hadEOF⟩
        | c :: _ => .cp c) := by
  intro rem
  induction rem with
  | nil =>
    intro t _
    simp [numberedLoop]
  | cons c rs ih =>
    intro t hsync
    have hcur : t.input.cursor < t.input.buffer.length := by
      by_contra hc
      rw [List.drop_eq_nil_iff.mpr (by omega)] at hsync
      cases hsync
    have hadv : t.input.advance = ⟨t.input.buffer, t.input.cursor + 1, t.input.hadEOF⟩ := by
      unfold Inputstream.advance
      rw [if_pos hcur]
    have hsync2 : t.input.buffer.drop (t.input.cursor + 1) = rs := by
      have h1 := List.drop_drop 1 t.input.cursor t.input.buffer
      rw [hsync] at h1
      simpa using h1.symm
    by_cases hd : isDigitB t.ctx.match_entity.base c
    · have hih := ih
        { t with
          ctx.match_entity.had_data := true
          ctx.match_entity.codepoint :=
            u32 (t.ctx.match_entity.codepoint * t.ctx.match_entity.base + digitVal c)
          ctx.match_entity.str.len := t.ctx.match_entity.str.len + 1
          input := t.input.advance }
        (by
          show (t.input.advance).buffer.drop (t.input.advance).cursor = rs
          rw [hadv]
          exact hsync2)
      have hstep : numberedLoop t (c :: rs) = numberedLoop
          { t with
            ctx.match_entity.had_data := true
            ctx.match_entity.codepoint :=
              u32 (t.ctx.match_entity.codepoint * t.ctx.match_entity.base + digitVal c)
            ctx.match_entity.str.len := t.ctx.match_entity.str.len + 1
            input := t.input.advance } rs := by
        simp only [numberedLoop]
        rw [if_pos hd]
      rw [hstep, hih]
      dsimp only
      rw [hadv]
      dsimp only
      rw [List.takeWhile_cons_of_pos hd]
      refine Prod.ext ?_ ?_
      · dsimp only
        simp only [Tokeniser.mk.injEq, Context.mk.injEq, MatchEntity.mk.injEq,
          HubbubString.mk.injEq, Inputstream.mk.injEq, List.foldl_cons,
          List.isEmpty_cons, Bool.not_false, Bool.or_true, Bool.true_or,
          List.length_cons, true_and, and_true]
        omega
      · dsimp only
        simp only [List.length_cons, List.drop_succ_cons]
        have harith : t.input.cursor + 1 + (rs.takeWhile
            (isDigitB t.ctx.match_entity.base)).length =
            t.input.cursor + ((rs.takeWhile (isDigitB t.ctx.match_entity.base)).length + 1) := by
          omega
        rw [harith]
    · have hstep : numberedLoop t (c :: rs) = (t, .cp c) := by
        simp only [numberedLoop]
        rw [if_neg hd]
      rw [hstep, List.takeWhile_cons_of_neg hd]
      simp



set_option maxHeartbeats 1000000 in
/-- Behaviour of the numbered-entity handler on a fresh decimal entry (no
`x`/`X` prefix): the digit run is accumulated modulo 2^32 in base 10, the
span including `&#`, the digits and an optional trailing `;` is rewound,
and the buffer range is replaced by the remapped codepoint. -/
theorem numbered_entity_decimal_spec (t : Tokeniser) (rem ds : List Nat) (semi : Nat)
    (hrem : t.input.buffer.drop t.input.cursor = rem)
    (hEOF : t.input.hadEOF = true)
    (hb : t.ctx.match_entity.base = 0)
    (hcp : t.ctx.match_entity.codepoint = 0)
    (hhd : t.ctx.match_entity.had_data = false)
    (hcur : t.input.cursor = t.ctx.match_entity.str.data_off + t.ctx.match_entity.str.len)
    (hnx : peekMasked t.input.peek 88 = false)
    (hds : ds = rem.takeWhile (isDigitB 10))
    (hdsne : ds ≠ [])
    (hsemi : semi = if (rem.drop ds.length).head? = some 59 then 1 else 0) :
    ∃ t2, hubbub_tokeniser_handle_numbered_entity t = .next t2 true ∧
      t2.state = t.ctx.match_entity.return_state ∧
      t2.ctx.match_entity.complete = true ∧
      t2.output = t.output ∧
      t2.content_model = t.content_model ∧
      t2.input.cursor = t.ctx.match_entity.str.data_off ∧
      t2.ctx.match_entity.codepoint =
        numericRemap ((ds.foldl (fun a d => a * 10 + digitVal d) 0) % 4294967296) ∧
      t2.input.buffer =
        t.input.buffer.take t.ctx.match_entity.str.data_off ++
          numericRemap ((ds.foldl (fun a d => a * 10 + digitVal d) 0) % 4294967296) ::
          t.input.buffer.drop (t.input.cursor + ds.length + semi) := by
  have hc0 : t.input.peek ≠ .ood := by
    unfold Inputstream.peek
    split_ifs with h1 h2 <;> simp_all
  have hdsE : ds.isEmpty = false := by
    cases ds with
    | nil => cases hdsne rfl
    | cons a l => rfl
  have hspec := numberedLoop_spec rem { t with ctx.match_entity.base := 10 } hrem
  dsimp only at hspec
  rw [hcp, hhd, ← hds] at hspec
  have hcpv : ds.foldl (fun a d => u32 (a * 10 + digitVal d)) 0 =
      (ds.foldl (fun a d => a * 10 + digitVal d) 0) % 4294967296 := by
    have h := u32_foldl 10 ds 0
    simpa using h
  unfold hubbub_tokeniser_handle_numbered_entity
  dsimp only
  rw [if_neg hc0, if_pos hb,
    if_neg (show ¬(peekMasked t.input.peek 88 = true) by simp [hnx])]
  dsimp only
  rw [hcp, hhd, hrem]
  rw [hspec]
  dsimp only
  rcases hdp : rem.drop ds.length with _ | ⟨c1, rest⟩
  · -- the digits run to the end of the buffer: the loop exits on EOF
    have h1 := List.drop_drop ds.length t.input.cursor t.input.buffer
    rw [hrem, hdp] at h1
    have hbeyond : t.input.buffer.length ≤ t.input.cursor + ds.length :=
      List.drop_eq_nil_iff.mp h1.symm
    have hpkend : Inputstream.peek ⟨t.input.buffer, t.input.cursor + ds.length,
        t.input.hadEOF⟩ = .eof := by
      unfold Inputstream.peek
      dsimp only
      rw [if_neg (show ¬(t.input.cursor + ds.length < t.input.buffer.length) by omega),
        hEOF]
      rfl
    dsimp only
    rw [hpkend]
    rw [hdp] at hsemi
    simp at hsemi
    subst hsemi
    rw [if_neg (show ¬(Peeked.eof = Peeked.ood) by decide),
      if_neg (show ¬(Peeked.eof = Peeked.cp 59) by decide)]
    have hrwi : Inputstream.rewindIgnore
        ⟨t.input.buffer, t.input.cursor + ds.length, t.input.hadEOF⟩
        (t.ctx.match_entity.str.len + ds.length) =
        ⟨t.input.buffer, t.ctx.match_entity.str.data_off, t.input.hadEOF⟩ := by
      unfold Inputstream.rewindIgnore
      dsimp only
      rw [if_pos (show t.ctx.match_entity.str.len + ds.length ≤
        t.input.cursor + ds.length by omega)]
      simp only [Inputstream.mk.injEq, true_and, and_true]
      omega
    rw [hrwi]
    try dsimp only
    rw [if_pos (show (false || !ds.isEmpty) = true by rw [hdsE]; rfl)]
    try dsimp only
    refine ⟨_, rfl, rfl, rfl, rfl, rfl, rfl, ?_, ?_⟩
    · try dsimp only
      first
        | rfl
        | rw [hcpv]
    · try dsimp only
      try rw [hcpv]
      unfold Inputstream.replaceRange
      dsimp only
      have harith : t.ctx.match_entity.str.data_off +
          (t.ctx.match_entity.str.len + ds.length) =
          t.input.cursor + ds.length + 0 := by omega
      rw [harith]
  · -- a non-digit follows the digits
    have h1 := List.drop_drop ds.length t.input.cursor t.input.buffer
    rw [hrem, hdp] at h1
    have hlt : t.input.cursor + ds.length < t.input.buffer.length := by
      by_contra hc
      rw [List.drop_eq_nil_iff.mpr (by omega)] at h1
      cases h1
    rw [hdp] at hsemi
    simp only [List.head?_cons, Option.some.injEq] at hsemi
    dsimp only
    rw [if_neg (show ¬(Peeked.cp c1 = Peeked.ood) by simp)]
    by_cases hc1 : c1 = 59
    · -- semicolon: consumed before the rewind
      rw [if_pos hc1] at hsemi
      subst hsemi
      subst hc1
      rw [if_pos (show Peeked.cp 59 = Peeked.cp 59 from rfl)]
      have hadv2 : Inputstream.advance ⟨t.input.buffer, t.input.cursor + ds.length,
          t.input.hadEOF⟩ = ⟨t.input.buffer, t.input.cursor + ds.length + 1,
          t.input.hadEOF⟩ := by
        unfold Inputstream.advance
        dsimp only
        rw [if_pos (show t.input.cursor + ds.length < t.input.buffer.length by omega)]
      dsimp only
      rw [hadv2]
      have hrwi : Inputstream.rewindIgnore
          ⟨t.input.buffer, t.input.cursor + ds.length + 1, t.input.hadEOF⟩
          (t.ctx.match_entity.str.len + ds.length + 1) =
          ⟨t.input.buffer, t.ctx.match_entity.str.data_off, t.input.hadEOF⟩ := by
        unfold Inputstream.rewindIgnore
        dsimp only
        rw [if_pos (show t.ctx.match_entity.str.len + ds.length + 1 ≤
          t.input.cursor + ds.length + 1 by omega)]
        simp only [Inputstream.mk.injEq, true_and, and_true]
        omega
      rw [hrwi]
      try dsimp only
      rw [if_pos (show (false || !ds.isEmpty) = true by rw [hdsE]; rfl)]
      try dsimp only
      refine ⟨_, rfl, rfl, rfl, rfl, rfl, rfl, ?_, ?_⟩
      · try dsimp only
        first
          | rfl
          | rw [hcpv]
      · try dsimp only
        try rw [hcpv]
        unfold Inputstream.replaceRange
        dsimp only
        have harith : t.ctx.match_entity.str.data_off +
            (t.ctx.match_entity.str.len + ds.length + 1) =
            t.input.cursor + ds.length + 1 := by omega
        rw [harith]
    · -- no semicolon: rewind from the non-digit
      rw [if_neg hc1] at hsemi
      subst hsemi
      rw [if_neg (show ¬(Peeked.cp c1 = Peeked.cp 59) by simp [hc1])]
      have hrwi : Inputstream.rewindIgnore
          ⟨t.input.buffer, t.input.cursor + ds.length, t.input.hadEOF⟩
          (t.ctx.match_entity.str.len + ds.length) =
          ⟨t.input.buffer, t.ctx.match_entity.str.data_off, t.input.hadEOF⟩ := by
        unfold Inputstream.rewindIgnore
        dsimp only
        rw [if_pos (show t.ctx.match_entity.str.len + ds.length ≤
          t.input.cursor + ds.length by omega)]
        simp only [Inputstream.mk.injEq, true_and, and_true]
        omega
      rw [hrwi]
      try dsimp only
      rw [if_pos (show (false || !ds.isEmpty) = true by rw [hdsE]; rfl)]
      try dsimp only
      refine ⟨_, rfl, rfl, rfl, rfl, rfl, rfl, ?_, ?_⟩
      · try dsimp only
        first
          | rfl
          | rw [hcpv]
      · try dsimp only
        try rw [hcpv]
        unfold Inputstream.replaceRange
        dsimp only
        have harith : t.ctx.match_entity.str.data_off +
            (t.ctx.match_entity.str.len + ds.length) =
            t.input.cursor + ds.length + 0 := by omega
        rw [harith]



/-- Reading a list at an index, through the tail returned by `drop`. -/
theorem getD_of_drop_cons : ∀ (l : List Nat) (n x : Nat) (r : List Nat),
    l.drop n = x :: r → l.getD n 0 = x := by
  intro l
  induction l with
  | nil =>
    intro n x r h
    simp at h
  | cons a l ih =>
    intro n x r h
    cases n with
    | zero =>
      simp only [List.drop_zero] at h
      cases h
      rfl
    | succ n =>
      simp only [List.drop_succ_cons] at h
      simpa using ih n x r h

set_option maxHeartbeats 1000000 in
/-- Behaviour of the numbered-entity handler on a fresh entry whose first
character is an `x`/`X` prefix: as in the decimal case but in base 16,
with the prefix included in the replaced span. -/
theorem numbered_entity_hex_spec (t : Tokeniser) (x : Nat) (remB ds : List Nat) (semi : Nat)
    (hrem : t.input.buffer.drop t.input.cursor = x :: remB)
    (hEOF : t.input.hadEOF = true)
    (hb : t.ctx.match_entity.base = 0)
    (hcp : t.ctx.match_entity.codepoint = 0)
    (hhd : t.ctx.match_entity.had_data = false)
    (hcur : t.input.cursor = t.ctx.match_entity.str.data_off + t.ctx.match_entity.str.len)
    (hmask : maskUpper x = 88)
    (hds : ds = remB.takeWhile (isDigitB 16))
    (hdsne : ds ≠ [])
    (hsemi : semi = if (remB.drop ds.length).head? = some 59 then 1 else 0) :
    ∃ t2, hubbub_tokeniser_handle_numbered_entity t = .next t2 true ∧
      t2.state = t.ctx.match_entity.return_state ∧
      t2.ctx.match_entity.complete = true ∧
      t2.output = t.output ∧
      t2.content_model = t.content_model ∧
      t2.input.cursor = t.ctx.match_entity.str.data_off ∧
      t2.ctx.match_entity.codepoint =
        numericRemap ((ds.foldl (fun a d => a * 16 + digitVal d) 0) % 4294967296) ∧
      t2.input.buffer =
        t.input.buffer.take t.ctx.match_entity.str.data_off ++
          numericRemap ((ds.foldl (fun a d => a * 16 + digitVal d) 0) % 4294967296) ::
          t.input.buffer.drop (t.input.cursor + 1 + ds.length + semi) := by
  have hcur2 : t.input.cursor < t.input.buffer.length := by
    by_contra hc
    rw [List.drop_eq_nil_iff.mpr (by omega)] at hrem
    cases hrem
  have hpk : t.input.peek = .cp x := by
    unfold Inputstream.peek
    rw [if_pos hcur2, getD_of_drop_cons t.input.buffer t.input.cursor x remB hrem]
  have hc0 : t.input.peek ≠ .ood := by
    rw [hpk]
    simp
  have hadv : t.input.advance = ⟨t.input.buffer, t.input.cursor + 1, t.input.hadEOF⟩ := by
    unfold Inputstream.advance
    rw [if_pos hcur2]
  have hsyncB : t.input.buffer.drop (t.input.cursor + 1) = remB := by
    have h1 := List.drop_drop 1 t.input.cursor t.input.buffer
    rw [hrem] at h1
    simpa using h1.symm
  have hdsE : ds.isEmpty = false := by
    cases ds with
    | nil => cases hdsne rfl
    | cons a l => rfl
  have hspec := numberedLoop_spec remB
    { t with
      ctx.match_entity.base := 16
      ctx.match_entity.str.len := t.ctx.match_entity.str.len + 1
      input := t.input.advance }
    (by
      show (t.input.advance).buffer.drop (t.input.advance).cursor = remB
      rw [hadv]
      exact hsyncB)
  dsimp only at hspec
  rw [hadv] at hspec
  dsimp only at hspec
  rw [hcp, hhd, ← hds] at hspec
  have hcpv : ds.foldl (fun a d => u32 (a * 16 + digitVal d)) 0 =
      (ds.foldl (fun a d => a * 16 + digitVal d) 0) % 4294967296 := by
    have h := u32_foldl 16 ds 0
    simpa using h
  unfold hubbub_tokeniser_handle_numbered_entity
  dsimp only
  rw [if_neg hc0, if_pos hb,
    if_pos (show peekMasked t.input.peek 88 = true by rw [hpk]; simp [peekMasked, hmask])]
  dsimp only
  rw [hcp, hhd, hadv]
  dsimp only
  rw [hsyncB]
  rw [hspec]
  dsimp only
  rcases hdp : remB.drop ds.length with _ | ⟨c1, rest⟩
  · -- the digits run to the end of the buffer: the loop exits on EOF
    have h1 := List.drop_drop ds.length (t.input.cursor + 1) t.input.buffer
    rw [hsyncB, hdp] at h1
    have hbeyond : t.input.buffer.length ≤ t.input.cursor + 1 + ds.length :=
      List.drop_eq_nil_iff.mp h1.symm
    have hpkend : Inputstream.peek ⟨t.input.buffer, t.input.cursor + 1 + ds.length,
        t.input.hadEOF⟩ = .eof := by
      unfold Inputstream.peek
      dsimp only
      rw [if_neg (show ¬(t.input.cursor + 1 + ds.length < t.input.buffer.length) by omega),
        hEOF]
      rfl
    dsimp only
    rw [hpkend]
    rw [hdp] at hsemi
    simp at hsemi
    subst hsemi
    rw [if_neg (show ¬(Peeked.eof = Peeked.ood) by decide),
      if_neg (show ¬(Peeked.eof = Peeked.cp 59) by decide)]
    have hrwi : Inputstream.rewindIgnore
        ⟨t.input.buffer, t.input.cursor + 1 + ds.length, t.input.hadEOF⟩
        (t.ctx.match_entity.str.len + 1 + ds.length) =
        ⟨t.input.buffer, t.ctx.match_entity.str.data_off, t.input.hadEOF⟩ := by
      unfold Inputstream.rewindIgnore
      dsimp only
      rw [if_pos (show t.ctx.match_entity.str.len + 1 + ds.length ≤
        t.input.cursor + 1 + ds.length by omega)]
      simp only [Inputstream.mk.injEq, true_and, and_true]
      omega
    rw [hrwi]
    try dsimp only
    rw [if_pos (show (false || !ds.isEmpty) = true by rw [hdsE]; rfl)]
    try dsimp only
    refine ⟨_, rfl, rfl, rfl, rfl, rfl, rfl, ?_, ?_⟩
    · try dsimp only
      first
        | rfl
        | rw [hcpv]
    · try dsimp only
      try rw [hcpv]
      unfold Inputstream.replaceRange
      dsimp only
      have harith : t.ctx.match_entity.str.data_off +
          (t.ctx.match_entity.str.len + 1 + ds.length) =
          t.input.cursor + 1 + ds.length + 0 := by omega
      rw [harith]
  · -- a non-digit follows the digits
    have h1 := List.drop_drop ds.length (t.input.cursor + 1) t.input.buffer
    rw [hsyncB, hdp] at h1
    have hlt : t.input.cursor + 1 + ds.length < t.input.buffer.length := by
      by_contra hc
      rw [List.drop_eq_nil_iff.mpr (by omega)] at h1
      cases h1
    rw [hdp] at hsemi
    simp only [List.head?_cons, Option.some.injEq] at hsemi
    dsimp only
    rw [if_neg (show ¬(Peeked.cp c1 = Peeked.ood) by simp)]
    by_cases hc1 : c1 = 59
    · -- semicolon: consumed before the rewind
      rw [if_pos hc1] at hsemi
      subst hsemi
      subst hc1
      rw [if_pos (show Peeked.cp 59 = Peeked.cp 59 from rfl)]
      have hadv2 : Inputstream.advance ⟨t.input.buffer, t.input.cursor + 1 + ds.length,
          t.input.hadEOF⟩ = ⟨t.input.buffer, t.input.cursor + 1 + ds.length + 1,
          t.input.hadEOF⟩ := by
        unfold Inputstream.advance
        dsimp only
        rw [if_pos (show t.input.cursor + 1 + ds.length < t.input.buffer.length by omega)]
      dsimp only
      rw [hadv2]
      have hrwi : Inputstream.rewindIgnore
          ⟨t.input.buffer, t.input.cursor + 1 + ds.length + 1, t.input.hadEOF⟩
          (t.ctx.match_entity.str.len + 1 + ds.length + 1) =
          ⟨t.input.buffer, t.ctx.match_entity.str.data_off, t.input.hadEOF⟩ := by
        unfold Inputstream.rewindIgnore
        dsimp only
        rw [if_pos (show t.ctx.match_entity.str.len + 1 + ds.length + 1 ≤
          t.input.cursor + 1 + ds.length + 1 by omega)]
        simp only [Inputstream.mk.injEq, true_and, and_true]
        omega
      rw [hrwi]
      try dsimp only
      rw [if_pos (show (false || !ds.isEmpty) = true by rw [hdsE]; rfl)]
      try dsimp only
      refine ⟨_, rfl, rfl, rfl, rfl, rfl, rfl, ?_, ?_⟩
      · try dsimp only
        first
          | rfl
          | rw [hcpv]
      · try dsimp only
        try rw [hcpv]
        unfold Inputstream.replaceRange
        dsimp only
        have harith : t.ctx.match_entity.str.data_off +
            (t.ctx.match_entity.str.len + 1 + ds.length + 1) =
            t.input.cursor + 1 + ds.length + 1 := by omega
        rw [harith]
    · -- no semicolon: rewind from the non-digit
      rw [if_neg hc1] at hsemi
      subst hsemi
      rw [if_neg (show ¬(Peeked.cp c1 = Peeked.cp 59) by simp [hc1])]
      have hrwi : Inputstream.rewindIgnore
          ⟨t.input.buffer, t.input.cursor + 1 + ds.length, t.input.hadEOF⟩
          (t.ctx.match_entity.str.len + 1 + ds.length) =
          ⟨t.input.buffer, t.ctx.match_entity.str.data_off, t.input.hadEOF⟩ := by
        unfold Inputstream.rewindIgnore
        dsimp only
        rw [if_pos (show t.ctx.match_entity.str.len + 1 + ds.length ≤
          t.input.cursor + 1 + ds.length by omega)]
        simp only [Inputstream.mk.injEq, true_and, and_true]
        omega
      rw [hrwi]
      try dsimp only
      rw [if_pos (show (false || !ds.isEmpty) = true by rw [hdsE]; rfl)]
      try dsimp only
      refine ⟨_, rfl, rfl, rfl, rfl, rfl, rfl, ?_, ?_⟩
      · try dsimp only
        first
          | rfl
          | rw [hcpv]
      · try dsimp only
        try rw [hcpv]
        unfold Inputstream.replaceRange
        dsimp only
        have harith : t.ctx.match_entity.str.data_off +
            (t.ctx.match_entity.str.len + 1 + ds.length) =
            t.input.cursor + 1 + ds.length + 0 := by omega
        rw [harith]


/-- C5 counterexample: `&#4294967361;` names a codepoint far beyond
0x10FFFF, yet the emitted character is `A` (65), not U+FFFD, because the
`uint32_t` accumulator wraps 4294967361 to 65 before the range check. -/
theorem C5_numbered_entity_overflow_counterexample :
    runOutput [] 100 (str2cps "&#4294967361;") = some [.character [65], .eofTok] ∧
    0x10FFFF < 4294967361 ∧ (65 : Nat) ≠ 0xFFFD :=
  ⟨by decide, by decide, by decide⟩

/-- C5 (amended): when the numbered-entity machine terminates having read
at least one digit, the matched span (the optional `x`/`X` prefix, the
digits, and a trailing `;` exactly when one immediately follows the
digits) is rewound and replaced in the buffer by a single codepoint
computed as the accumulated value in the selected base (16 with a prefix,
else 10) reduced modulo 2^32 by the `uint32_t` accumulator, remapped
through the Windows-1252 table when the wrapped value lies in 0x80..0x9F,
and forced to U+FFFD when the wrapped value is 0 or exceeds 0x10FFFF; in
particular `&#128;` and `&#x80;` both yield the single character U+20AC. -/
theorem C5_numbered_entity_wrapped_codepoint :
    (∀ (t : Tokeniser) (rem ds : List Nat) (semi : Nat),
      t.input.buffer.drop t.input.cursor = rem →
      t.input.hadEOF = true →
      t.ctx.match_entity.base = 0 →
      t.ctx.match_entity.codepoint = 0 →
      t.ctx.match_entity.had_data = false →
      t.input.cursor = t.ctx.match_entity.str.data_off + t.ctx.match_entity.str.len →
      peekMasked t.input.peek 88 = false →
      ds = rem.takeWhile (isDigitB 10) →
      ds ≠ [] →
      semi = (if (rem.drop ds.length).head? = some 59 then 1 else 0) →
      ∃ t2, hubbub_tokeniser_handle_numbered_entity t = .next t2 true ∧
        t2.state = t.ctx.match_entity.return_state ∧
        t2.ctx.match_entity.complete = true ∧
        t2.output = t.output ∧
        t2.content_model = t.content_model ∧
        t2.input.cursor = t.ctx.match_entity.str.data_off ∧
        t2.ctx.match_entity.codepoint =
          numericRemap ((ds.foldl (fun a d => a * 10 + digitVal d) 0) % 4294967296) ∧
        t2.input.buffer =
          t.input.buffer.take t.ctx.match_entity.str.data_off ++
            numericRemap ((ds.foldl (fun a d => a * 10 + digitVal d) 0) % 4294967296) ::
            t.input.buffer.drop (t.input.cursor + ds.length + semi)) ∧
    (∀ (t : Tokeniser) (x : Nat) (remB ds : List Nat) (semi : Nat),
      t.input.buffer.drop t.input.cursor = x :: remB →
      t.input.hadEOF = true →
      t.ctx.match_entity.base = 0 →
      t.ctx.match_entity.codepoint = 0 →
      t.ctx.match_entity.had_data = false →
      t.input.cursor = t.ctx.match_entity.str.data_off + t.ctx.match_entity.str.len →
      maskUpper x = 88 →
      ds = remB.takeWhile (isDigitB 16) →
      ds ≠ [] →
      semi = (if (remB.drop ds.length).head? = some 59 then 1 else 0) →
      ∃ t2, hubbub_tokeniser_handle_numbered_entity t = .next t2 true ∧
        t2.state = t.ctx.match_entity.return_state ∧
        t2.ctx.match_entity.complete = true ∧
        t2.output = t.output ∧
        t2.content_model = t.content_model ∧
        t2.input.cursor = t.ctx.match_entity.str.data_off ∧
        t2.ctx.match_entity.codepoint =
          numericRemap ((ds.foldl (fun a d => a * 16 + digitVal d) 0) % 4294967296) ∧
        t2.input.buffer =
          t.input.buffer.take t.ctx.match_entity.str.data_off ++
            numericRemap ((ds.foldl (fun a d => a * 16 + digitVal d) 0) % 4294967296) ::
            t.input.buffer.drop (t.input.cursor + 1 + ds.length + semi)) ∧
    runOutput [] 100 (str2cps "&#128;") = some [.character [0x20AC], .eofTok] ∧
    runOutput [] 100 (str2cps "&#x80;") = some [.character [0x20AC], .eofTok] :=
  ⟨fun t rem ds semi h1 h2 h3 h4 h5 h6 h7 h8 h9 h10 =>
      numbered_entity_decimal_spec t rem ds semi h1 h2 h3 h4 h5 h6 h7 h8 h9 h10,
    fun t x remB ds semi h1 h2 h3 h4 h5 h6 h7 h8 h9 h10 =>
      numbered_entity_hex_spec t x remB ds semi h1 h2 h3 h4 h5 h6 h7 h8 h9 h10,
    by decide, by decide⟩

/-- Witness for C5: the decimal clause applied to the tokeniser state just
after the `&#` of `&#128;` has been consumed. -/
theorem C5_numbered_entity_wrapped_codepoint_witness :
    ∃ t2, hubbub_tokeniser_handle_numbered_entity c5wT = .next t2 true ∧
      t2.state = c5wT.ctx.match_entity.return_state ∧
      t2.ctx.match_entity.complete = true ∧
      t2.output = c5wT.output ∧
      t2.content_model = c5wT.content_model ∧
      t2.input.cursor = c5wT.ctx.match_entity.str.data_off ∧
      t2.ctx.match_entity.codepoint =
        numericRemap ((([49, 50, 56] : List Nat).foldl
          (fun a d => a * 10 + digitVal d) 0) % 4294967296) ∧
      t2.input.buffer =
        c5wT.input.buffer.take c5wT.ctx.match_entity.str.data_off ++
          numericRemap ((([49, 50, 56] : List Nat).foldl
            (fun a d => a * 10 + digitVal d) 0) % 4294967296) ::
          c5wT.input.buffer.drop (c5wT.input.cursor + 3 + 1) :=
  C5_numbered_entity_wrapped_codepoint.1 c5wT (str2cps "128;") [49, 50, 56] 1
    (by decide) (by decide) (by decide) (by decide) (by decide) (by decide)
    (by decide) (by decide) (by decide) (by decide)

/-- Looking up an entity name successfully names a dictionary entry. -/
theorem entityLookup_mem : ∀ (dict : List (List Nat × Nat)) (s : List Nat) (v : Nat),
    entityLookup dict s = some v → ∃ e ∈ dict, e.1 = s ∧ e.2 = v := by
  intro dict
  induction dict with
  | nil => intro s v h; cases h
  | cons e es ih =>
    intro s v h
    unfold entityLookup at h
    split_ifs at h with he
    · injection h with hv
      exact ⟨e, List.mem_cons_self e es, he, hv⟩
    · obtain ⟨e', he', h1, h2⟩ := ih s v h
      exact ⟨e', List.mem_cons_of_mem e he', h1, h2⟩

/-- A strict prefix of a dictionary name keeps the trie descent viable. -/
theorem entityViable_of_mem : ∀ (dict : List (List Nat × Nat)) (e : List Nat × Nat)
    (s : List Nat), e ∈ dict → s <+: e.1 → s.length < e.1.length →
    entityViable dict s = true := by
  intro dict e s he hp hl
  unfold entityViable
  rw [List.any_eq_true]
  refine ⟨e, he, ?_⟩
  rw [Bool.and_eq_true, List.isPrefixOf_iff_prefix, decide_eq_true_iff]
  exact ⟨hp, hl⟩

set_option maxHeartbeats 1600000 in
/-- Invariant of the named-entity trie-descent loop: it consumes a prefix
of the remaining input, extends the context and the match span in
lockstep, and its recorded previous length and codepoint are exactly the
longest dictionary match among the consumed prefixes; no prefix extending
past the stopping point is a dictionary name unless the input ran out. -/
theorem namedLoop_spec (dict : List (List Nat × Nat))
    (hname : ∀ e ∈ dict, e.1 ≠ [] ∧ ∀ ch ∈ e.1, ch ≤ 0x7F) :
    ∀ (rem : List Nat) (t : Tokeniser) (done : List Nat),
    t.input.buffer.drop t.input.cursor = rem →
    t.ctx.match_entity.context = done →
    ∃ n, n ≤ rem.length ∧
      (namedLoop dict t rem).1.input =
        ⟨t.input.buffer, t.input.cursor + n, t.input.hadEOF⟩ ∧
      (namedLoop dict t rem).1.ctx.match_entity.context = done ++ rem.take n ∧
      (namedLoop dict t rem).1.ctx.match_entity.str.len =
        t.ctx.match_entity.str.len + n ∧
      (namedLoop dict t rem).1.ctx.match_entity.str.data_off =
        t.ctx.match_entity.str.data_off ∧
      (namedLoop dict t rem).1.ctx.match_entity.return_state =
        t.ctx.match_entity.return_state ∧
      (namedLoop dict t rem).1.output = t.output ∧
      (namedLoop dict t rem).1.content_model = t.content_model ∧
      (namedLoop dict t rem).2 = (match rem.drop n with
        | [] => Inputstream.peek ⟨t.input.buffer, t.input.cursor + n, t.input.hadEOF⟩
        | c :: _ => .cp c) ∧
      (((namedLoop dict t rem).1.ctx.match_entity.prev_len =
          t.ctx.match_entity.prev_len ∧
        (namedLoop dict t rem).1.ctx.match_entity.codepoint =
          t.ctx.match_entity.codepoint ∧
        ∀ k, 1 ≤ k → k ≤ n → entityLookup dict (done ++ rem.take k) = none) ∨
       (∃ k v, 1 ≤ k ∧ k ≤ n ∧
        entityLookup dict (done ++ rem.take k) = some v ∧
        (namedLoop dict t rem).1.ctx.match_entity.prev_len =
          t.ctx.match_entity.str.len + k ∧
        (namedLoop dict t rem).1.ctx.match_entity.codepoint = v ∧
        ∀ j, k < j → j ≤ n → entityLookup dict (done ++ rem.take j) = none)) ∧
      (n = rem.length ∨
        ∀ j, n < j → j ≤ rem.length → entityLookup dict (done ++ rem.take j) = none) := by
  intro rem
  induction rem with
  | nil =>
    intro t done hsync hctx
    refine ⟨0, by omega, rfl, by simp [namedLoop, hctx], rfl, rfl, rfl, rfl, rfl, rfl,
      Or.inl ⟨rfl, rfl, by intro k h1 h2; omega⟩, Or.inl rfl⟩
  | cons c rs ih =>
    intro t done hsync hctx
    have hcur : t.input.cursor < t.input.buffer.length := by
      by_contra hc
      rw [List.drop_eq_nil_iff.mpr (by omega)] at hsync
      cases hsync
    have hadv : t.input.advance = ⟨t.input.buffer, t.input.cursor + 1, t.input.hadEOF⟩ := by
      unfold Inputstream.advance
      rw [if_pos hcur]
    have hsync2 : t.input.buffer.drop (t.input.cursor + 1) = rs := by
      have h1 := List.drop_drop 1 t.input.cursor t.input.buffer
      rw [hsync] at h1
      simpa using h1.symm
    by_cases hascii : 0x7F < c
    · -- a non-ASCII byte stops the descent immediately
      have hstop : namedLoop dict t (c :: rs) = (t, .cp c) := by
        simp only [namedLoop]
        rw [if_pos hascii]
      rw [hstop]
      refine ⟨0, by omega, rfl, by simp [hctx], rfl, rfl, rfl, rfl, rfl, rfl,
        Or.inl ⟨rfl, rfl, by intro k h1 h2; omega⟩, Or.inr ?_⟩
      intro j hj1 hj2
      rcases hlk : entityLookup dict (done ++ (c :: rs).take j) with _ | v
      · rfl
      exfalso
      obtain ⟨e, he, he1, he2⟩ := entityLookup_mem dict _ _ hlk
      have hc : c ∈ e.1 := by
        rw [he1]
        refine List.mem_append_right done ?_
        rcases j with _ | j
        · omega
        · simp [List.take_succ_cons]
      have := (hname e he).2 c hc
      omega
    · rcases hlk : entityLookup dict (done ++ [c]) with _ | v
      · by_cases hvb : entityViable dict (done ++ [c]) = true
        · -- continue: a proper prefix of some entity name
          have hstepEq : hubbub_entities_search_step dict c t.ctx.match_entity.context =
              (.more, done ++ [c]) := by
            unfold hubbub_entities_search_step
            rw [hctx]
            dsimp only
            rw [hlk]
            dsimp only
            rw [if_pos hvb]
          have hstop : namedLoop dict t (c :: rs) = namedLoop dict
              { t with
                ctx.match_entity.str.len := t.ctx.match_entity.str.len + 1
                ctx.match_entity.context := done ++ [c]
                input := t.input.advance } rs := by
            simp only [namedLoop]
            rw [if_neg hascii, hstepEq]
          rw [hstop, hadv]
          obtain ⟨n', i0, i1, i2, i3, i4, i5, i6, i7, i8, i9, i10⟩ := ih
            { t with
              ctx.match_entity.str.len := t.ctx.match_entity.str.len + 1
              ctx.match_entity.context := done ++ [c]
              input := t.input.advance }
            (done ++ [c])
            (by
              show (t.input.advance).buffer.drop (t.input.advance).cursor = rs
              rw [hadv]
              exact hsync2)
            rfl
          dsimp only at i1 i2 i3 i4 i5 i6 i7 i8 i9
          rw [hadv] at i1 i2 i3 i4 i5 i6 i7 i8 i9
          dsimp only at i1 i8
          have htk : ∀ j, 1 ≤ j → done ++ (c :: rs).take j = (done ++ [c]) ++ rs.take (j - 1) := by
            intro j hj
            rcases j with _ | j
            · omega
            · simp [List.take_succ_cons]
          refine ⟨n' + 1, by simp; omega, ?_, ?_, by rw [i3]; omega, i4, i5, i6, i7, ?_, ?_, ?_⟩
          · rw [i1]
            have : t.input.cursor + 1 + n' = t.input.cursor + (n' + 1) := by omega
            rw [this]
          · rw [i2, htk (n' + 1) (by omega)]
            simp
          · rw [i8]
            simp only [List.drop_succ_cons]
            have : t.input.cursor + 1 + n' = t.input.cursor + (n' + 1) := by omega
            rw [this]
          · rcases i9 with ⟨p1, p2, p3⟩ | ⟨k, v', q1, q2, q3, q4, q5, q6⟩
            · refine Or.inl ⟨by rw [p1], by rw [p2], ?_⟩
              intro k h1 h2
              rcases Nat.eq_or_lt_of_le h1 with h1' | h1'
              · rw [htk k h1, ← h1']
                simpa using hlk
              · rw [htk k h1]
                exact p3 (k - 1) (by omega) (by omega)
            · refine Or.inr ⟨k + 1, v', by omega, by omega, ?_, by rw [q4]; omega,
                q5, ?_⟩
              · rw [htk (k + 1) (by omega)]
                simpa using q3
              · intro j hj1 hj2
                rw [htk j (by omega)]
                exact q6 (j - 1) (by omega) (by omega)
          · rcases i10 with h | h
            · exact Or.inl (by simp [h])
            · refine Or.inr ?_
              intro j hj1 hj2
              rw [htk j (by omega)]
              exact h (j - 1) (by omega) (by simp at hj2; omega)
        · -- dead end: the descent stops, nothing longer can match
          have hstepEq : hubbub_entities_search_step dict c t.ctx.match_entity.context =
              (.dead, done ++ [c]) := by
            unfold hubbub_entities_search_step
            rw [hctx]
            dsimp only
            rw [hlk]
            dsimp only
            rw [if_neg hvb]
          have hstop : namedLoop dict t (c :: rs) = (t, .cp c) := by
            simp only [namedLoop]
            rw [if_neg hascii, hstepEq]
          rw [hstop]
          refine ⟨0, by omega, rfl, by simp [hctx], rfl, rfl, rfl, rfl, rfl, rfl,
            Or.inl ⟨rfl, rfl, by intro k h1 h2; omega⟩, Or.inr ?_⟩
          intro j hj1 hj2
          rcases hlk2 : entityLookup dict (done ++ (c :: rs).take j) with _ | v2
          · rfl
          exfalso
          rcases Nat.eq_or_lt_of_le (show 1 ≤ j by omega) with hj' | hj'
          · rw [← hj'] at hlk2
            simp at hlk2
            rw [hlk] at hlk2
            cases hlk2
          · obtain ⟨e, he, he1, he2⟩ := entityLookup_mem dict _ _ hlk2
            have hpre : (done ++ [c]) <+: e.1 := by
              rw [he1]
              rcases j with _ | j
              · omega
              · refine ⟨rs.take j, ?_⟩
                simp [List.take_succ_cons]
            have hlen : (done ++ [c]).length < e.1.length := by
              rw [he1]
              rcases j with _ | j
              · omega
              · simp [List.take_succ_cons, List.length_take]
                simp at hj2
                omega
            exact hvb (entityViable_of_mem dict e (done ++ [c]) he hpre hlen)
      · -- a full entity name: record the match and continue
        have hstepEq : hubbub_entities_search_step dict c t.ctx.match_entity.context =
            (.found v, done ++ [c]) := by
          unfold hubbub_entities_search_step
          rw [hctx]
          dsimp only
          rw [hlk]
        have hstop : namedLoop dict t (c :: rs) = namedLoop dict
            { t with
              ctx.match_entity.codepoint := v
              ctx.match_entity.str.len := t.ctx.match_entity.str.len + 1
              ctx.match_entity.prev_len := t.ctx.match_entity.str.len + 1
              ctx.match_entity.context := done ++ [c]
              input := t.input.advance } rs := by
          simp only [namedLoop]
          rw [if_neg hascii, hstepEq]
        rw [hstop, hadv]
        obtain ⟨n', i0, i1, i2, i3, i4, i5, i6, i7, i8, i9, i10⟩ := ih
          { t with
            ctx.match_entity.codepoint := v
            ctx.match_entity.str.len := t.ctx.match_entity.str.len + 1
            ctx.match_entity.prev_len := t.ctx.match_entity.str.len + 1
            ctx.match_entity.context := done ++ [c]
            input := t.input.advance }
          (done ++ [c])
          (by
            show (t.input.advance).buffer.drop (t.input.advance).cursor = rs
            rw [hadv]
            exact hsync2)
          rfl
        dsimp only at i1 i2 i3 i4 i5 i6 i7 i8 i9
        rw [hadv] at i1 i2 i3 i4 i5 i6 i7 i8 i9
        dsimp only at i1 i8
        have htk : ∀ j, 1 ≤ j → done ++ (c :: rs).take j = (done ++ [c]) ++ rs.take (j - 1) := by
          intro j hj
          rcases j with _ | j
          · omega
          · simp [List.take_succ_cons]
        refine ⟨n' + 1, by simp; omega, ?_, ?_, by rw [i3]; omega, i4, i5, i6, i7, ?_, ?_, ?_⟩
        · rw [i1]
          have : t.input.cursor + 1 + n' = t.input.cursor + (n' + 1) := by omega
          rw [this]
        · rw [i2, htk (n' + 1) (by omega)]
          simp
        · rw [i8]
          simp only [List.drop_succ_cons]
          have : t.input.cursor + 1 + n' = t.input.cursor + (n' + 1) := by omega
          rw [this]
        · rcases i9 with ⟨p1, p2, p3⟩ | ⟨k, v', q1, q2, q3, q4, q5, q6⟩
          · refine Or.inr ⟨1, v, by omega, by omega, by simpa using hlk,
              by rw [p1], by rw [p2], ?_⟩
            intro j hj1 hj2
            rw [htk j (by omega)]
            exact p3 (j - 1) (by omega) (by omega)
          · refine Or.inr ⟨k + 1, v', by omega, by omega, ?_, by rw [q4]; omega,
              q5, ?_⟩
            · rw [htk (k + 1) (by omega)]
              simpa using q3
            · intro j hj1 hj2
              rw [htk j (by omega)]
              exact q6 (j - 1) (by omega) (by omega)
        · rcases i10 with h | h
          · exact Or.inl (by simp [h])
          · refine Or.inr ?_
            intro j hj1 hj2
            rw [htk j (by omega)]
            exact h (j - 1) (by omega) (by simp at hj2; omega)



set_option maxHeartbeats 1600000 in
/-- Behaviour of the named-entity handler on a fresh entry (context empty,
no recorded codepoint): either no prefix of the remaining input is an
entity name and the stream is merely rewound to the `&`, or the longest
matching prefix of length `k` is replaced by its codepoint, a trailing
`;` being consumed exactly when the match ended at the stopping point and
a `;` stands there. -/
theorem named_entity_longest_spec (dict : List (List Nat × Nat))
    (hname : ∀ e ∈ dict, e.1 ≠ [] ∧ ∀ ch ∈ e.1, ch ≤ 0x7F)
    (hval : ∀ e ∈ dict, e.2 ≠ 0)
    (t : Tokeniser) (rem : List Nat)
    (hrem : t.input.buffer.drop t.input.cursor = rem)
    (hEOF : t.input.hadEOF = true)
    (hctx : t.ctx.match_entity.context = [])
    (hcp : t.ctx.match_entity.codepoint = 0)
    (hpl : t.ctx.match_entity.prev_len = t.ctx.match_entity.str.len)
    (hcur : t.input.cursor = t.ctx.match_entity.str.data_off + t.ctx.match_entity.str.len) :
    ∃ t2, hubbub_tokeniser_handle_named_entity dict t = .next t2 true ∧
      t2.state = t.ctx.match_entity.return_state ∧
      t2.ctx.match_entity.complete = true ∧
      t2.output = t.output ∧
      t2.content_model = t.content_model ∧
      t2.input.cursor = t.ctx.match_entity.str.data_off ∧
      ((t2.input.buffer = t.input.buffer ∧
          t2.ctx.match_entity.codepoint = 0 ∧
          (∀ j, 1 ≤ j → j ≤ rem.length → entityLookup dict (rem.take j) = none)) ∨
       (∃ k v semi n, 1 ≤ k ∧ k ≤ n ∧ n ≤ rem.length ∧
          entityLookup dict (rem.take k) = some v ∧
          (∀ j, k < j → j ≤ rem.length → entityLookup dict (rem.take j) = none) ∧
          semi = (if k = n ∧ (rem.drop k).head? = some 59 then 1 else 0) ∧
          t2.ctx.match_entity.codepoint = v ∧
          t2.input.buffer =
            t.input.buffer.take t.ctx.match_entity.str.data_off ++ v ::
              t.input.buffer.drop (t.input.cursor + k + semi))) := by
  obtain ⟨n, i0, i1, i2, i3, i4, i5, i6, i7, i8, i9, i10⟩ :=
    namedLoop_spec dict hname rem t [] hrem hctx
  simp only [List.nil_append] at i2 i9 i10
  have hstopAll : ∀ j, n < j → j ≤ rem.length → entityLookup dict (rem.take j) = none := by
    rcases i10 with h | h
    · intro j hj1 hj2
      omega
    · exact h
  have hrwi : Inputstream.rewindIgnore
      ⟨t.input.buffer, t.input.cursor + n, t.input.hadEOF⟩
      (t.ctx.match_entity.str.len + n) =
      ⟨t.input.buffer, t.ctx.match_entity.str.data_off, t.input.hadEOF⟩ := by
    unfold Inputstream.rewindIgnore
    try dsimp only
    rw [if_pos (show t.ctx.match_entity.str.len + n ≤ t.input.cursor + n by omega)]
    simp only [Inputstream.mk.injEq, true_and, and_true]
    omega
  unfold hubbub_tokeniser_handle_named_entity
  try dsimp only
  rw [hrem]
  set L := namedLoop dict t rem with hLdef
  rw [i8]
  rcases i9 with ⟨p1, p2, p3⟩ | ⟨k, v, q1, q2, q3, q4, q5, q6⟩
  · -- no prefix matched: the stream is rewound and nothing is replaced
    have hnone : ∀ j, 1 ≤ j → j ≤ rem.length → entityLookup dict (rem.take j) = none := by
      intro j hj1 hj2
      by_cases hjn : j ≤ n
      · exact p3 j hj1 hjn
      · exact hstopAll j (by omega) hj2
    have hcp0 : L.1.ctx.match_entity.codepoint = 0 := p2.trans hcp
    rcases hdp : rem.drop n with _ | ⟨c1, rest⟩
    · have h1 := List.drop_drop n t.input.cursor t.input.buffer
      rw [hrem, hdp] at h1
      have hbeyond : t.input.buffer.length ≤ t.input.cursor + n :=
        List.drop_eq_nil_iff.mp h1.symm
      have hpkend : Inputstream.peek ⟨t.input.buffer, t.input.cursor + n,
          t.input.hadEOF⟩ = .eof := by
        unfold Inputstream.peek
        try dsimp only
        rw [if_neg (show ¬(t.input.cursor + n < t.input.buffer.length) by omega), hEOF]
        rfl
      try dsimp only
      rw [hpkend]
      rw [if_neg (show ¬(Peeked.eof = Peeked.ood) by decide)]
      rw [if_neg (show ¬(L.1.ctx.match_entity.codepoint ≠ 0 ∧
          Peeked.eof = Peeked.cp 59 ∧
          L.1.ctx.match_entity.prev_len = L.1.ctx.match_entity.str.len) from
        fun h => h.1 hcp0)]
      rw [i1, i3, hrwi]
      try dsimp only
      rw [if_neg (show ¬(L.1.ctx.match_entity.codepoint ≠ 0) from fun h => h hcp0)]
      exact ⟨_, rfl, i5, rfl, i6, i7, rfl, Or.inl ⟨rfl, hcp0, hnone⟩⟩
    · try dsimp only
      rw [if_neg (show ¬(Peeked.cp c1 = Peeked.ood) by simp)]
      rw [if_neg (show ¬(L.1.ctx.match_entity.codepoint ≠ 0 ∧
          Peeked.cp c1 = Peeked.cp 59 ∧
          L.1.ctx.match_entity.prev_len = L.1.ctx.match_entity.str.len) from
        fun h => h.1 hcp0)]
      rw [i1, i3, hrwi]
      try dsimp only
      rw [if_neg (show ¬(L.1.ctx.match_entity.codepoint ≠ 0) from fun h => h hcp0)]
      exact ⟨_, rfl, i5, rfl, i6, i7, rfl, Or.inl ⟨rfl, hcp0, hnone⟩⟩
  · -- the longest matching prefix is recorded and replaced
    obtain ⟨e, he, he1, he2⟩ := entityLookup_mem dict _ _ q3
    have hv0 : v ≠ 0 := by
      rw [← he2]
      exact hval e he
    have hmaxAll : ∀ j, k < j → j ≤ rem.length → entityLookup dict (rem.take j) = none := by
      intro j hj1 hj2
      by_cases hjn : j ≤ n
      · exact q6 j hj1 hjn
      · exact hstopAll j (by omega) hj2
    have hcpv : L.1.ctx.match_entity.codepoint ≠ 0 := by
      rw [q5]
      exact hv0
    rcases hdp : rem.drop n with _ | ⟨c1, rest⟩
    · have h1 := List.drop_drop n t.input.cursor t.input.buffer
      rw [hrem, hdp] at h1
      have hbeyond : t.input.buffer.length ≤ t.input.cursor + n :=
        List.drop_eq_nil_iff.mp h1.symm
      have hpkend : Inputstream.peek ⟨t.input.buffer, t.input.cursor + n,
          t.input.hadEOF⟩ = .eof := by
        unfold Inputstream.peek
        try dsimp only
        rw [if_neg (show ¬(t.input.cursor + n < t.input.buffer.length) by omega), hEOF]
        rfl
      try dsimp only
      rw [hpkend]
      rw [if_neg (show ¬(Peeked.eof = Peeked.ood) by decide)]
      rw [if_neg (show ¬(L.1.ctx.match_entity.codepoint ≠ 0 ∧
          Peeked.eof = Peeked.cp 59 ∧
          L.1.ctx.match_entity.prev_len = L.1.ctx.match_entity.str.len) from
        fun h => by cases h.2.1)]
      rw [i1, i3, hrwi]
      try dsimp only
      rw [if_pos hcpv]
      try dsimp only
      rw [q4, q5, i4]
      unfold Inputstream.replaceRange
      try dsimp only
      refine ⟨_, rfl, i5, rfl, i6, i7, rfl,
        Or.inr ⟨k, v, 0, n, q1, q2, i0, q3, hmaxAll, ?_, rfl, ?_⟩⟩
      · rw [if_neg ?_]
        rintro ⟨h1, h2⟩
        rw [h1, hdp] at h2
        cases h2
      · have harith : t.ctx.match_entity.str.data_off +
            (t.ctx.match_entity.str.len + k) = t.input.cursor + k + 0 := by omega
        rw [harith]
    · try dsimp only
      rw [if_neg (show ¬(Peeked.cp c1 = Peeked.ood) by simp)]
      by_cases hsc : c1 = 59 ∧ k = n
      · obtain ⟨hc1, hkn⟩ := hsc
        rw [if_pos (show L.1.ctx.match_entity.codepoint ≠ 0 ∧
            Peeked.cp c1 = Peeked.cp 59 ∧
            L.1.ctx.match_entity.prev_len = L.1.ctx.match_entity.str.len from
          ⟨hcpv, by rw [hc1], by rw [q4, i3, hkn]⟩)]
        try dsimp only
        rw [i1, i3, hrwi]
        try dsimp only
        rw [if_pos (show L.1.ctx.match_entity.codepoint ≠ 0 from hcpv)]
        try dsimp only
        rw [q4, q5, i4]
        unfold Inputstream.replaceRange
        try dsimp only
        refine ⟨_, rfl, i5, rfl, i6, i7, rfl,
          Or.inr ⟨k, v, 1, n, q1, q2, i0, q3, hmaxAll, ?_, rfl, ?_⟩⟩
        · rw [if_pos ⟨hkn, by rw [hkn, hdp, hc1]; rfl⟩]
        · have harith : t.ctx.match_entity.str.data_off +
              (t.ctx.match_entity.str.len + k + 1) = t.input.cursor + k + 1 := by omega
          rw [harith]
      · rw [if_neg (show ¬(L.1.ctx.match_entity.codepoint ≠ 0 ∧
            Peeked.cp c1 = Peeked.cp 59 ∧
            L.1.ctx.match_entity.prev_len = L.1.ctx.match_entity.str.len) from ?_)]
        · rw [i1, i3, hrwi]
          try dsimp only
          rw [if_pos hcpv]
          try dsimp only
          rw [q4, q5, i4]
          unfold Inputstream.replaceRange
          try dsimp only
          refine ⟨_, rfl, i5, rfl, i6, i7, rfl,
            Or.inr ⟨k, v, 0, n, q1, q2, i0, q3, hmaxAll, ?_, rfl, ?_⟩⟩
          · rw [if_neg ?_]
            rintro ⟨h1, h2⟩
            rw [h1, hdp] at h2
            injection h2 with h3
            exact hsc ⟨h3, h1⟩
          · have harith : t.ctx.match_entity.str.data_off +
                (t.ctx.match_entity.str.len + k) = t.input.cursor + k + 0 := by omega
            rw [harith]
        · rintro ⟨h1, h2, h3⟩
          injection h2 with h4
          rw [q4, i3] at h3
          exact hsc ⟨h4, by omega⟩


/-- C4: named-entity consumption is a stepwise trie descent recording the
length and codepoint of the longest prefix that is a valid entity name;
on trie exhaustion or a non-ASCII byte the stream is rewound and exactly
the last-good-length bytes are replaced by the matched codepoint, with a
trailing `;` consumed exactly when the last-good match ended at the
semicolon position; `&ampx` yields the character data `&` then `x`. -/
theorem C4_named_entity_longest_match :
    (∀ (dict : List (List Nat × Nat)) (t : Tokeniser) (rem : List Nat),
      (∀ e ∈ dict, e.1 ≠ [] ∧ ∀ ch ∈ e.1, ch ≤ 0x7F) →
      (∀ e ∈ dict, e.2 ≠ 0) →
      t.input.buffer.drop t.input.cursor = rem →
      t.input.hadEOF = true →
      t.ctx.match_entity.context = [] →
      t.ctx.match_entity.codepoint = 0 →
      t.ctx.match_entity.prev_len = t.ctx.match_entity.str.len →
      t.input.cursor = t.ctx.match_entity.str.data_off + t.ctx.match_entity.str.len →
      ∃ t2, hubbub_tokeniser_handle_named_entity dict t = .next t2 true ∧
        t2.state = t.ctx.match_entity.return_state ∧
        t2.ctx.match_entity.complete = true ∧
        t2.output = t.output ∧
        t2.content_model = t.content_model ∧
        t2.input.cursor = t.ctx.match_entity.str.data_off ∧
        ((t2.input.buffer = t.input.buffer ∧
            t2.ctx.match_entity.codepoint = 0 ∧
            (∀ j, 1 ≤ j → j ≤ rem.length → entityLookup dict (rem.take j) = none)) ∨
         (∃ k v semi n, 1 ≤ k ∧ k ≤ n ∧ n ≤ rem.length ∧
            entityLookup dict (rem.take k) = some v ∧
            (∀ j, k < j → j ≤ rem.length → entityLookup dict (rem.take j) = none) ∧
            semi = (if k = n ∧ (rem.drop k).head? = some 59 then 1 else 0) ∧
            t2.ctx.match_entity.codepoint = v ∧
            t2.input.buffer =
              t.input.buffer.take t.ctx.match_entity.str.data_off ++ v ::
                t.input.buffer.drop (t.input.cursor + k + semi)))) ∧
    runOutput egDict 100 (str2cps "&ampx") =
      some [.character [38], .character [120], .eofTok] ∧
    runOutput egDict 100 (str2cps "&amp;x") =
      some [.character [38], .character [120], .eofTok] ∧
    str2cps "&x" = [38, 120] :=
  ⟨fun dict t rem h1 h2 h3 h4 h5 h6 h7 h8 =>
      named_entity_longest_spec dict h1 h2 t rem h3 h4 h5 h6 h7 h8,
    by decide, by decide, by decide⟩

/-- Witness for C4: the general clause applied to the example dictionary
and the tokeniser state just after the `&` of `&ampx`. -/
theorem C4_named_entity_longest_match_witness :
    ∃ t2, hubbub_tokeniser_handle_named_entity egDict c4wT = .next t2 true ∧
      t2.state = c4wT.ctx.match_entity.return_state ∧
      t2.ctx.match_entity.complete = true ∧
      t2.output = c4wT.output ∧
      t2.content_model = c4wT.content_model ∧
      t2.input.cursor = c4wT.ctx.match_entity.str.data_off ∧
      ((t2.input.buffer = c4wT.input.buffer ∧
          t2.ctx.match_entity.codepoint = 0 ∧
          (∀ j, 1 ≤ j → j ≤ (str2cps "ampx").length →
            entityLookup egDict ((str2cps "ampx").take j) = none)) ∨
       (∃ k v semi n, 1 ≤ k ∧ k ≤ n ∧ n ≤ (str2cps "ampx").length ∧
          entityLookup egDict ((str2cps "ampx").take k) = some v ∧
          (∀ j, k < j → j ≤ (str2cps "ampx").length →
            entityLookup egDict ((str2cps "ampx").take j) = none) ∧
          semi = (if k = n ∧ ((str2cps "ampx").drop k).head? = some 59 then 1 else 0) ∧
          t2.ctx.match_entity.codepoint = v ∧
          t2.input.buffer =
            c4wT.input.buffer.take c4wT.ctx.match_entity.str.data_off ++ v ::
              c4wT.input.buffer.drop (c4wT.input.cursor + k + semi))) :=
  C4_named_entity_longest_match.1 egDict c4wT (str2cps "ampx")
    (by decide) (by decide) (by decide) (by decide) (by decide) (by decide)
    (by decide) (by decide)

end Hubbub

